import Mathlib

/-!
Verification of the version-increment utility (`increment_version.py`).

The script reads a `version.h`-style text file, extracts the four integer
fields `FIRMWARE_VERSION_MAJOR/MINOR/PATCH` and `FIRMWARE_BUILD_NUMBER`
via regular-expression search, increments one of them with cascading
resets, rewrites every occurrence of the four numeric patterns, rewrites
the quoted payloads of `FIRMWARE_VERSION_STRING` and
`FIRMWARE_VERSION_FULL`, and writes the file back.

The embedding below models the text as `List Char`.  The regular
expressions used by the script all have the rigid form
`LITERAL \s+ \d+` respectively `LITERAL \s+ " [^"]+ "`; since the
character classes involved are pairwise disjoint, Python's greedy
matching coincides with the longest-run scan implemented here
(`matchNumAt` / `matchStrAt`).  `re.search` is the leftmost such match
(`searchNum`), and `re.sub` is the left-to-right non-overlapping
replacement of every match (`subNum` / `subStr`).  The file system is a
partial map from path to contents, and the process's stdout/stderr are
lists of messages.
-/

/-- Python's `\s` on the ASCII range: space, tab, newline, carriage
return, vertical tab, form feed. -/
def isSpaceCh (c : Char) : Bool :=
  c == ' ' || c == '\t' || c == '\n' || c == '\r' || c == '\x0b' || c == '\x0c'

/-- Python's `\d` on the ASCII range: the decimal digits. -/
def isDigitCh (c : Char) : Bool :=
  '0' ≤ c && c ≤ '9'

/-- Numeric value of one decimal digit character. -/
def digitVal (c : Char) : Nat := c.toNat - 48

/-- Value of a digit string, as Python's `int` computes it (leading
zeros allowed). -/
def digitsVal (ds : List Char) : Nat :=
  ds.foldl (fun acc c => acc * 10 + digitVal c) 0

/-- Fuel-driven decimal rendering of a natural number (the fuel is only
a structural-recursion device; `natToChars` supplies enough of it). -/
def ntcAux : Nat → Nat → List Char
  | 0, _ => []
  | fuel + 1, n =>
    if n < 10 then [Nat.digitChar n]
    else ntcAux fuel (n / 10) ++ [Nat.digitChar (n % 10)]

/-- Decimal rendering of a natural number, as Python's `str` produces it. -/
def natToChars (n : Nat) : List Char := ntcAux (n + 1) n

/-- Literal part of the pattern for the major field. -/
def litMajor : List Char := ("#define FIRMWARE_VERSION_MAJOR").toList

/-- Literal part of the pattern for the minor field. -/
def litMinor : List Char := ("#define FIRMWARE_VERSION_MINOR").toList

/-- Literal part of the pattern for the patch field. -/
def litPatch : List Char := ("#define FIRMWARE_VERSION_PATCH").toList

/-- Literal part of the pattern for the build field. -/
def litBuild : List Char := ("#define FIRMWARE_BUILD_NUMBER").toList

/-- Literal part of the pattern for the version-string declaration. -/
def litStr : List Char := ("#define FIRMWARE_VERSION_STRING").toList

/-- Literal part of the pattern for the full-version declaration. -/
def litFull : List Char := ("#define FIRMWARE_VERSION_FULL").toList

/-- Product-name text interpolated in front of the version string by the
script's `full_version` f-string. -/
def productPrefix : List Char := ("ESP32 RTP Transciever v").toList

/-- Match of the pattern `(LITERAL\s+)(\d+)` at the head of `s`.  On
success it returns (group 1, group 2, remainder after the match):
group 1 is the literal together with the whitespace run, group 2 the
digit run.  Greedy `\s+`/`\d+` reduce to longest runs because a digit is
never whitespace. -/
def matchNumAt (lit s : List Char) : Option (List Char × List Char × List Char) :=
  if lit.isPrefixOf s then
    if ((s.drop lit.length).takeWhile isSpaceCh) ≠ [] ∧
       (((s.drop lit.length).dropWhile isSpaceCh).takeWhile isDigitCh) ≠ [] then
      some (lit ++ (s.drop lit.length).takeWhile isSpaceCh,
            ((s.drop lit.length).dropWhile isSpaceCh).takeWhile isDigitCh,
            ((s.drop lit.length).dropWhile isSpaceCh).dropWhile isDigitCh)
    else none
  else none

/-- Match of the pattern `(LITERAL\s+")([^"]+)(")` at the head of `s`.
On success it returns (group 1 without its closing quote, i.e. the
literal plus the whitespace run, and the remainder after group 3). -/
def matchStrAt (lit s : List Char) : Option (List Char × List Char) :=
  if lit.isPrefixOf s then
    match (s.drop lit.length).dropWhile isSpaceCh with
    | '"' :: s3 =>
      match s3.dropWhile (fun c => c != '"') with
      | '"' :: rest =>
        if ((s.drop lit.length).takeWhile isSpaceCh) ≠ [] ∧
           (s3.takeWhile (fun c => c != '"')) ≠ [] then
          some (lit ++ (s.drop lit.length).takeWhile isSpaceCh, rest)
        else none
      | _ => none
    | _ => none
  else none

/-- Leftmost match of `(LITERAL\s+)(\d+)`, returning group 2.  This is
`re.search` followed by `match.group(2)`. -/
def searchNum (lit : List Char) : List Char → Option (List Char)
  | [] => none
  | c :: cs =>
    match matchNumAt lit (c :: cs) with
    | some r => some r.2.1
    | none => searchNum lit cs

/-- Fuel-driven body of `subNum`; the fuel is only a structural-recursion
device, `subNum` supplies enough of it. -/
def subNumF (lit new : List Char) : Nat → List Char → List Char
  | 0, s => s
  | _ + 1, [] => []
  | fuel + 1, c :: cs =>
    match matchNumAt lit (c :: cs) with
    | some r => r.1 ++ new ++ subNumF lit new fuel r.2.2
    | none => c :: subNumF lit new fuel cs

/-- `re.sub` for the numeric patterns with replacement `\g<1>NEW`:
replace every non-overlapping match, scanning left to right. -/
def subNum (lit new s : List Char) : List Char := subNumF lit new s.length s

/-- Fuel-driven body of `subStr`; the fuel is only a structural-recursion
device, `subStr` supplies enough of it. -/
def subStrF (lit new : List Char) : Nat → List Char → List Char
  | 0, s => s
  | _ + 1, [] => []
  | fuel + 1, c :: cs =>
    match matchStrAt lit (c :: cs) with
    | some r => r.1 ++ '"' :: (new ++ '"' :: subStrF lit new fuel r.2)
    | none => c :: subStrF lit new fuel cs

/-- `re.sub` for the quoted-string patterns with replacement
`\g<1>NEW\g<3>`: replace every non-overlapping match, left to right. -/
def subStr (lit new s : List Char) : List Char := subStrF lit new s.length s

/-- A whitespace character is one of six concrete characters. -/
lemma isSpaceCh_cases {c : Char} (h : isSpaceCh c = true) :
    c = ' ' ∨ c = '\t' ∨ c = '\n' ∨ c = '\r' ∨ c = '\x0b' ∨ c = '\x0c' := by
  simp only [isSpaceCh, Bool.or_eq_true, beq_iff_eq] at h
  tauto

/-- Whitespace is never the hash character. -/
lemma space_ne_hash {c : Char} (h : isSpaceCh c = true) : c ≠ '#' := by
  rcases isSpaceCh_cases h with h | h | h | h | h | h <;> subst h <;> decide

/-- Whitespace is never a digit. -/
lemma space_not_digit {c : Char} (h : isSpaceCh c = true) : isDigitCh c = false := by
  rcases isSpaceCh_cases h with h | h | h | h | h | h <;> subst h <;> decide

/-- A digit is never whitespace. -/
lemma digit_not_space {c : Char} (h : isDigitCh c = true) : isSpaceCh c = false := by
  cases hs : isSpaceCh c with
  | false => rfl
  | true => rw [space_not_digit hs] at h; cases h

/-- A digit is never the hash character. -/
lemma digit_ne_hash {c : Char} (h : isDigitCh c = true) : c ≠ '#' := by
  intro hc; subst hc; cases h

/-- A digit is never the double-quote character. -/
lemma digit_ne_quote {c : Char} (h : isDigitCh c = true) : (c != '"') = true := by
  rcases c with ⟨v, hv⟩
  simp only [bne_iff_ne, ne_eq]
  intro hc
  rw [hc] at h
  cases h

/-- Spans: `takeWhile`/`dropWhile` over a concatenation whose left part
satisfies the predicate and whose right part starts with a failure. -/
lemma takeWhile_dropWhile_append {p : Char → Bool} {a b : List Char}
    (ha : ∀ c ∈ a, p c = true) (hb : ∀ c, b.head? = some c → p c = false) :
    (a ++ b).takeWhile p = a ∧ (a ++ b).dropWhile p = b := by
  induction a with
  | nil =>
    simp only [List.nil_append]
    cases b with
    | nil => simp
    | cons c cs =>
      have hc := hb c rfl
      simp [List.takeWhile_cons, List.dropWhile_cons, hc]
  | cons x xs ih =>
    have hx : p x = true := ha x (by simp)
    have ih' := ih (fun c hc => ha c (by simp [hc]))
    simp [List.takeWhile_cons, List.dropWhile_cons, hx, ih'.1, ih'.2]

/-- A list is a prefix of itself followed by anything. -/
lemma isPrefixOf_append_self (l t : List Char) : l.isPrefixOf (l ++ t) = true := by
  induction l with
  | nil => simp
  | cons x xs ih => simp [List.isPrefixOf, ih]

/-- A successful `isPrefixOf` splits the larger list. -/
lemma exists_of_isPrefixOf : ∀ {l s : List Char}, l.isPrefixOf s = true → ∃ t, s = l ++ t := by
  intro l
  induction l with
  | nil => exact fun {s} _ => ⟨s, rfl⟩
  | cons x xs ih =>
    intro s h
    cases s with
    | nil => cases h
    | cons y ys =>
      simp only [List.isPrefixOf, Bool.and_eq_true, beq_iff_eq] at h
      obtain ⟨t, ht⟩ := ih h.2
      exact ⟨t, by simp [h.1, ht]⟩

/-- A cons list headed by a different character is not a prefix. -/
lemma isPrefixOf_cons_ne {x c : Char} {lt cs : List Char} (hx : c ≠ x) :
    (x :: lt).isPrefixOf (c :: cs) = false := by
  have hxc : (x == c) = false := by
    simp only [beq_eq_false_iff_ne, ne_eq]
    exact fun h => hx h.symm
  simp [List.isPrefixOf, hxc]

/-- Conflict witness: some position within the overlap of the two lists
where they differ. -/
def headConflict (b lit : List Char) : Bool :=
  (b.zip lit).any (fun q => q.1 != q.2)

/-- A pattern that conflicts with a block within their overlap cannot
match at the block's start, whatever follows the block. -/
lemma not_isPrefixOf_of_headConflict :
    ∀ {b lit : List Char}, headConflict b lit = true →
      ∀ (s : List Char), lit.isPrefixOf (b ++ s) = false := by
  intro b
  induction b with
  | nil => intro lit h; cases h
  | cons x bs ih =>
    intro lit h s
    cases lit with
    | nil => cases h
    | cons y ls =>
      simp only [headConflict, List.zip_cons_cons, List.any_cons, Bool.or_eq_true,
        bne_iff_ne, ne_eq] at h
      rcases h with h | h
      · exact isPrefixOf_cons_ne h
      · simp [List.isPrefixOf, ih h s]

/-- Head of a concatenation with a nonempty left part. -/
lemma head?_append_left {a b : List Char} (ha : a ≠ []) : (a ++ b).head? = a.head? := by
  cases a with
  | nil => exact absurd rfl ha
  | cons x xs => simp

/-- Splitting the length of a list at a `takeWhile`/`dropWhile` boundary. -/
lemma takeWhile_dropWhile_length (p : Char → Bool) (l : List Char) :
    (l.takeWhile p).length + (l.dropWhile p).length = l.length := by
  rw [← List.length_append, List.takeWhile_append_dropWhile]

/-- A successful numeric match consumes at least one character beyond the
returned remainder. -/
lemma matchNumAt_rest_length {lit s : List Char} {r : List Char × List Char × List Char}
    (h : matchNumAt lit s = some r) : r.2.2.length < s.length := by
  unfold matchNumAt at h
  split at h
  · split at h
    · rename_i hpre hne
      injection h with h2
      subst h2
      have h12 := takeWhile_dropWhile_length isSpaceCh (s.drop lit.length)
      have h23 := takeWhile_dropWhile_length isDigitCh
        ((s.drop lit.length).dropWhile isSpaceCh)
      have hw : 0 < ((s.drop lit.length).takeWhile isSpaceCh).length :=
        List.length_pos.mpr hne.1
      have hd : 0 < (((s.drop lit.length).dropWhile isSpaceCh).takeWhile isDigitCh).length :=
        List.length_pos.mpr hne.2
      have hs1 : (s.drop lit.length).length ≤ s.length := by
        simp [List.length_drop]
      simp only []
      omega
    · cases h
  · cases h

/-- A successful string match consumes at least one character beyond the
returned remainder. -/
lemma matchStrAt_rest_length {lit s : List Char} {r : List Char × List Char}
    (h : matchStrAt lit s = some r) : r.2.length < s.length := by
  unfold matchStrAt at h
  split at h
  · rename_i hpre
    split at h
    · rename_i s3 hs3
      split at h
      · rename_i rest hrest
        split at h
        · injection h with h2
          subst h2
          have h12 := takeWhile_dropWhile_length isSpaceCh (s.drop lit.length)
          have h34 := takeWhile_dropWhile_length (fun c => c != '"') s3
          have hlen3 : s3.length + 1 = ((s.drop lit.length).dropWhile isSpaceCh).length := by
            rw [hs3]; simp
          have hlen4 : rest.length + 1 = (s3.dropWhile (fun c => c != '"')).length := by
            rw [hrest]; simp
          have hs1 : (s.drop lit.length).length ≤ s.length := by
            simp [List.length_drop]
          simp only []
          omega
        · cases h
      · cases h
    · cases h
  · cases h

/-- Fuel irrelevance for `subNumF`: any sufficient fuel computes `subNum`. -/
lemma subNumF_fuel {lit new : List Char} :
    ∀ (f : Nat) (s : List Char), s.length ≤ f → subNumF lit new f s = subNum lit new s := by
  intro f
  induction f using Nat.strong_induction_on with
  | _ f ih =>
    intro s hs
    match f, s with
    | 0, s =>
      have : s = [] := List.length_eq_zero.mp (Nat.le_zero.mp hs)
      subst this
      rfl
    | f + 1, [] => rfl
    | f + 1, c :: cs =>
      simp only [List.length_cons] at hs
      show subNumF lit new (f + 1) (c :: cs) = subNumF lit new (cs.length + 1) (c :: cs)
      cases hm : matchNumAt lit (c :: cs) with
      | none =>
        simp only [subNumF, hm]
        rw [ih f (by omega) cs (by omega), ih cs.length (by omega) cs (by omega)]
      | some r =>
        have hr := matchNumAt_rest_length hm
        simp only [List.length_cons] at hr
        simp only [subNumF, hm]
        rw [ih f (by omega) r.2.2 (by omega), ih cs.length (by omega) r.2.2 (by omega)]

/-- Fuel irrelevance for `subStrF`: any sufficient fuel computes `subStr`. -/
lemma subStrF_fuel {lit new : List Char} :
    ∀ (f : Nat) (s : List Char), s.length ≤ f → subStrF lit new f s = subStr lit new s := by
  intro f
  induction f using Nat.strong_induction_on with
  | _ f ih =>
    intro s hs
    match f, s with
    | 0, s =>
      have : s = [] := List.length_eq_zero.mp (Nat.le_zero.mp hs)
      subst this
      rfl
    | f + 1, [] => rfl
    | f + 1, c :: cs =>
      simp only [List.length_cons] at hs
      show subStrF lit new (f + 1) (c :: cs) = subStrF lit new (cs.length + 1) (c :: cs)
      cases hm : matchStrAt lit (c :: cs) with
      | none =>
        simp only [subStrF, hm]
        rw [ih f (by omega) cs (by omega), ih cs.length (by omega) cs (by omega)]
      | some r =>
        have hr := matchStrAt_rest_length hm
        simp only [List.length_cons] at hr
        simp only [subStrF, hm]
        rw [ih f (by omega) r.2 (by omega), ih cs.length (by omega) r.2 (by omega)]

/-- Unfolding `subNum` on the empty text. -/
lemma subNum_nil (lit new : List Char) : subNum lit new [] = [] := rfl

/-- Unfolding `subNum` when no match starts at the current position. -/
lemma subNum_cons_none {lit : List Char} (new : List Char) {c : Char} {cs : List Char}
    (h : matchNumAt lit (c :: cs) = none) :
    subNum lit new (c :: cs) = c :: subNum lit new cs := by
  show subNumF lit new (c :: cs).length (c :: cs) = _
  simp only [List.length_cons, subNumF, h]
  rw [subNumF_fuel cs.length cs (Nat.le_refl _)]

/-- Unfolding `subNum` at a match: group 1 is kept, group 2 is replaced
by the new digits, and scanning resumes after the match. -/
lemma subNum_cons_some {lit : List Char} (new : List Char) {c : Char} {cs : List Char}
    {r : List Char × List Char × List Char}
    (h : matchNumAt lit (c :: cs) = some r) :
    subNum lit new (c :: cs) = r.1 ++ new ++ subNum lit new r.2.2 := by
  show subNumF lit new (c :: cs).length (c :: cs) = _
  simp only [List.length_cons, subNumF, h]
  have hr := matchNumAt_rest_length h
  simp only [List.length_cons] at hr
  rw [subNumF_fuel cs.length r.2.2 (by omega)]

/-- Unfolding `subStr` on the empty text. -/
lemma subStr_nil (lit new : List Char) : subStr lit new [] = [] := rfl

/-- Unfolding `subStr` when no match starts at the current position. -/
lemma subStr_cons_none {lit : List Char} (new : List Char) {c : Char} {cs : List Char}
    (h : matchStrAt lit (c :: cs) = none) :
    subStr lit new (c :: cs) = c :: subStr lit new cs := by
  show subStrF lit new (c :: cs).length (c :: cs) = _
  simp only [List.length_cons, subStrF, h]
  rw [subStrF_fuel cs.length cs (Nat.le_refl _)]

/-- Unfolding `subStr` at a match: group 1 and the quote delimiters are
kept, the payload is replaced, and scanning resumes after the match. -/
lemma subStr_cons_some {lit : List Char} (new : List Char) {c : Char} {cs : List Char}
    {r : List Char × List Char}
    (h : matchStrAt lit (c :: cs) = some r) :
    subStr lit new (c :: cs) = r.1 ++ '"' :: (new ++ '"' :: subStr lit new r.2) := by
  show subStrF lit new (c :: cs).length (c :: cs) = _
  simp only [List.length_cons, subStrF, h]
  have hr := matchStrAt_rest_length h
  simp only [List.length_cons] at hr
  rw [subStrF_fuel cs.length r.2 (by omega)]

/-- The head of a nonempty digit run (plus anything) is not whitespace. -/
lemma head_not_space_of_digits {d : List Char} (s : List Char) (hd1 : d ≠ [])
    (hda : ∀ c ∈ d, isDigitCh c = true) :
    ∀ c, (d ++ s).head? = some c → isSpaceCh c = false := by
  intro c hc
  rw [head?_append_left hd1] at hc
  cases d with
  | nil => exact absurd rfl hd1
  | cons d0 ds =>
    simp only [List.head?_cons, Option.some.injEq] at hc
    subst hc
    exact digit_not_space (hda d0 (by simp))

/-- The head of a quote-led list is not whitespace. -/
lemma head_quote_not_space (x : List Char) :
    ∀ c, ('"' :: x).head? = some c → isSpaceCh c = false := by
  intro c hc
  simp only [List.head?_cons, Option.some.injEq] at hc
  subst hc
  decide

/-- The head of a quote-led list fails the not-a-quote test. -/
lemma head_quote_not_nq (x : List Char) :
    ∀ c, ('"' :: x).head? = some c → (c != '"') = false := by
  intro c hc
  simp only [List.head?_cons, Option.some.injEq] at hc
  subst hc
  decide

/-- Successful numeric match on a decomposed text: the literal, then a
whitespace run, then a digit run, then a remainder not starting with a
digit. -/
lemma matchNumAt_match {lit w d s : List Char}
    (hw1 : w ≠ []) (hwa : ∀ c ∈ w, isSpaceCh c = true)
    (hd1 : d ≠ []) (hda : ∀ c ∈ d, isDigitCh c = true)
    (hs : ∀ c, s.head? = some c → isDigitCh c = false) :
    matchNumAt lit (lit ++ (w ++ (d ++ s))) = some (lit ++ w, d, s) := by
  have hpre := isPrefixOf_append_self lit (w ++ (d ++ s))
  have hdrop : (lit ++ (w ++ (d ++ s))).drop lit.length = w ++ (d ++ s) :=
    List.drop_left _ _
  have hsp := takeWhile_dropWhile_append (p := isSpaceCh) hwa
    (head_not_space_of_digits s hd1 hda)
  have hdg := takeWhile_dropWhile_append (p := isDigitCh) hda hs
  simp only [matchNumAt, hpre, if_true, hdrop, hsp.1, hsp.2, hdg.1, hdg.2]
  simp [hw1, hd1]

/-- Successful string match on a decomposed text: the literal, then a
whitespace run, then a quoted nonempty payload without inner quotes. -/
lemma matchStrAt_match {lit w p s : List Char}
    (hw1 : w ≠ []) (hwa : ∀ c ∈ w, isSpaceCh c = true)
    (hp1 : p ≠ []) (hpa : ∀ c ∈ p, (c != '"') = true) :
    matchStrAt lit (lit ++ (w ++ ('"' :: (p ++ ('"' :: s))))) = some (lit ++ w, s) := by
  have hpre := isPrefixOf_append_self lit (w ++ ('"' :: (p ++ ('"' :: s))))
  have hdrop :
      (lit ++ (w ++ ('"' :: (p ++ ('"' :: s))))).drop lit.length =
        w ++ ('"' :: (p ++ ('"' :: s))) :=
    List.drop_left _ _
  have hsp := takeWhile_dropWhile_append (p := isSpaceCh) hwa
    (head_quote_not_space (p ++ ('"' :: s)))
  have hnq := takeWhile_dropWhile_append (p := fun c => c != '"') hpa
    (head_quote_not_nq s)
  simp only [matchStrAt, hpre, if_true, hdrop, hsp.1, hsp.2, hnq.1, hnq.2]
  simp [hw1, hp1]

/-- No numeric match can start at a non-hash character when the pattern
literal starts with a hash. -/
lemma matchNumAt_none_cons {lit : List Char} {c : Char} {cs : List Char}
    (hlit : lit.head? = some '#') (hc : c ≠ '#') : matchNumAt lit (c :: cs) = none := by
  cases lit with
  | nil => cases hlit
  | cons x xs =>
    simp only [List.head?_cons, Option.some.injEq] at hlit
    subst hlit
    unfold matchNumAt
    rw [isPrefixOf_cons_ne hc]
    simp

/-- No string match can start at a non-hash character when the pattern
literal starts with a hash. -/
lemma matchStrAt_none_cons {lit : List Char} {c : Char} {cs : List Char}
    (hlit : lit.head? = some '#') (hc : c ≠ '#') : matchStrAt lit (c :: cs) = none := by
  cases lit with
  | nil => cases hlit
  | cons x xs =>
    simp only [List.head?_cons, Option.some.injEq] at hlit
    subst hlit
    unfold matchStrAt
    rw [isPrefixOf_cons_ne hc]
    simp

/-- Scanning `subNum` through hash-free text changes nothing there. -/
lemma subNum_skip_chunk {lit : List Char} (new : List Char) (hlit : lit.head? = some '#') :
    ∀ {a : List Char}, (∀ c ∈ a, c ≠ '#') → ∀ (s : List Char),
      subNum lit new (a ++ s) = a ++ subNum lit new s := by
  intro a
  induction a with
  | nil => intro _ s; simp
  | cons x xs ih =>
    intro ha s
    have hx : x ≠ '#' := ha x (by simp)
    have hm : matchNumAt lit (x :: (xs ++ s)) = none := matchNumAt_none_cons hlit hx
    rw [List.cons_append, subNum_cons_none new hm, ih (fun c hc => ha c (by simp [hc])) s]
    rfl

/-- Hash-free text is a fixed point of `subNum`. -/
lemma subNum_noHash_id {lit : List Char} (new : List Char) (hlit : lit.head? = some '#')
    {a : List Char} (ha : ∀ c ∈ a, c ≠ '#') : subNum lit new a = a := by
  have h := subNum_skip_chunk new hlit ha []
  simpa [subNum_nil] using h

/-- Scanning `subNum` through a block that starts with a hash but
conflicts with the pattern literal changes nothing there. -/
lemma subNum_skip_block {lit b : List Char} (new : List Char)
    (hlit : lit.head? = some '#') (hb : b.head? = some '#')
    (hbt : ∀ c ∈ b.tail, c ≠ '#') (hc : headConflict b lit = true) (s : List Char) :
    subNum lit new (b ++ s) = b ++ subNum lit new s := by
  cases b with
  | nil => cases hb
  | cons x bs =>
    simp only [List.head?_cons, Option.some.injEq] at hb
    subst hb
    have hm : matchNumAt lit ('#' :: (bs ++ s)) = none := by
      unfold matchNumAt
      rw [show ('#' :: (bs ++ s) : List Char) = ('#' :: bs) ++ s from rfl,
        not_isPrefixOf_of_headConflict hc s]
      simp
    rw [List.cons_append, subNum_cons_none new hm,
      subNum_skip_chunk new hlit (by simpa using hbt) s]
    rfl

/-- Scanning `subStr` through hash-free text changes nothing there. -/
lemma subStr_skip_chunk {lit : List Char} (new : List Char) (hlit : lit.head? = some '#') :
    ∀ {a : List Char}, (∀ c ∈ a, c ≠ '#') → ∀ (s : List Char),
      subStr lit new (a ++ s) = a ++ subStr lit new s := by
  intro a
  induction a with
  | nil => intro _ s; simp
  | cons x xs ih =>
    intro ha s
    have hx : x ≠ '#' := ha x (by simp)
    have hm : matchStrAt lit (x :: (xs ++ s)) = none := matchStrAt_none_cons hlit hx
    rw [List.cons_append, subStr_cons_none new hm, ih (fun c hc => ha c (by simp [hc])) s]
    rfl

/-- Hash-free text is a fixed point of `subStr`. -/
lemma subStr_noHash_id {lit : List Char} (new : List Char) (hlit : lit.head? = some '#')
    {a : List Char} (ha : ∀ c ∈ a, c ≠ '#') : subStr lit new a = a := by
  have h := subStr_skip_chunk new hlit ha []
  simpa [subStr_nil] using h

/-- Scanning `subStr` through a conflicting hash-led block changes
nothing there. -/
lemma subStr_skip_block {lit b : List Char} (new : List Char)
    (hlit : lit.head? = some '#') (hb : b.head? = some '#')
    (hbt : ∀ c ∈ b.tail, c ≠ '#') (hc : headConflict b lit = true) (s : List Char) :
    subStr lit new (b ++ s) = b ++ subStr lit new s := by
  cases b with
  | nil => cases hb
  | cons x bs =>
    simp only [List.head?_cons, Option.some.injEq] at hb
    subst hb
    have hm : matchStrAt lit ('#' :: (bs ++ s)) = none := by
      unfold matchStrAt
      rw [show ('#' :: (bs ++ s) : List Char) = ('#' :: bs) ++ s from rfl,
        not_isPrefixOf_of_headConflict hc s]
      simp
    rw [List.cons_append, subStr_cons_none new hm,
      subStr_skip_chunk new hlit (by simpa using hbt) s]
    rfl

/-- `searchNum` ignores hash-free text. -/
lemma searchNum_skip_chunk {lit : List Char} (hlit : lit.head? = some '#') :
    ∀ {a : List Char}, (∀ c ∈ a, c ≠ '#') → ∀ (s : List Char),
      searchNum lit (a ++ s) = searchNum lit s := by
  intro a
  induction a with
  | nil => intro _ s; simp
  | cons x xs ih =>
    intro ha s
    have hx : x ≠ '#' := ha x (by simp)
    have hm : matchNumAt lit (x :: (xs ++ s)) = none := matchNumAt_none_cons hlit hx
    rw [List.cons_append]
    simp only [searchNum, hm]
    exact ih (fun c hc => ha c (by simp [hc])) s

/-- `searchNum` finds nothing in hash-free text. -/
lemma searchNum_noHash_none {lit : List Char} (hlit : lit.head? = some '#')
    {a : List Char} (ha : ∀ c ∈ a, c ≠ '#') : searchNum lit a = none := by
  have h := searchNum_skip_chunk hlit ha []
  simpa using h

/-- `searchNum` ignores a conflicting hash-led block. -/
lemma searchNum_skip_block {lit b : List Char}
    (hlit : lit.head? = some '#') (hb : b.head? = some '#')
    (hbt : ∀ c ∈ b.tail, c ≠ '#') (hc : headConflict b lit = true) (s : List Char) :
    searchNum lit (b ++ s) = searchNum lit s := by
  cases b with
  | nil => cases hb
  | cons x bs =>
    simp only [List.head?_cons, Option.some.injEq] at hb
    subst hb
    have hm : matchNumAt lit ('#' :: (bs ++ s)) = none := by
      unfold matchNumAt
      rw [show ('#' :: (bs ++ s) : List Char) = ('#' :: bs) ++ s from rfl,
        not_isPrefixOf_of_headConflict hc s]
      simp
    rw [List.cons_append]
    simp only [searchNum, hm]
    exact searchNum_skip_chunk hlit (by simpa using hbt) s

/-- `searchNum` at the declaration itself returns the digit run. -/
lemma searchNum_here {lit w d s : List Char}
    (hlit : lit.head? = some '#') (hw1 : w ≠ []) (hwa : ∀ c ∈ w, isSpaceCh c = true)
    (hd1 : d ≠ []) (hda : ∀ c ∈ d, isDigitCh c = true)
    (hs : ∀ c, s.head? = some c → isDigitCh c = false) :
    searchNum lit (lit ++ (w ++ (d ++ s))) = some d := by
  cases lit with
  | nil => cases hlit
  | cons x xs =>
    have hm := @matchNumAt_match (x :: xs) _ _ _ hw1 hwa hd1 hda hs
    rw [List.cons_append] at hm
    rw [List.cons_append]
    simp [searchNum, hm]

/-- `subNum` at the declaration itself: group 1 is kept, the digit run
is replaced, scanning continues after the match. -/
lemma subNum_here {lit : List Char} (new : List Char) {w d s : List Char}
    (hlit : lit.head? = some '#') (hw1 : w ≠ []) (hwa : ∀ c ∈ w, isSpaceCh c = true)
    (hd1 : d ≠ []) (hda : ∀ c ∈ d, isDigitCh c = true)
    (hs : ∀ c, s.head? = some c → isDigitCh c = false) :
    subNum lit new (lit ++ (w ++ (d ++ s))) = lit ++ (w ++ (new ++ subNum lit new s)) := by
  cases lit with
  | nil => cases hlit
  | cons x xs =>
    have hm := @matchNumAt_match (x :: xs) _ _ _ hw1 hwa hd1 hda hs
    rw [List.cons_append] at hm
    rw [List.cons_append, subNum_cons_some new hm]
    simp [List.append_assoc]

/-- `subStr` at the declaration itself: group 1 and the quote delimiters
are kept, the payload is replaced, scanning continues after the match. -/
lemma subStr_here {lit : List Char} (new : List Char) {w p s : List Char}
    (hlit : lit.head? = some '#') (hw1 : w ≠ []) (hwa : ∀ c ∈ w, isSpaceCh c = true)
    (hp1 : p ≠ []) (hpa : ∀ c ∈ p, (c != '"') = true) :
    subStr lit new (lit ++ (w ++ ('"' :: (p ++ ('"' :: s))))) =
      lit ++ (w ++ ('"' :: (new ++ ('"' :: subStr lit new s)))) := by
  cases lit with
  | nil => cases hlit
  | cons x xs =>
    have hm := @matchStrAt_match (x :: xs) _ _ s hw1 hwa hp1 hpa
    rw [List.cons_append] at hm
    rw [List.cons_append, subStr_cons_some new hm]
    simp [List.append_assoc]

/-- Fuel irrelevance for the decimal renderer. -/
lemma ntcAux_fuel : ∀ (f n : Nat), n < f → ntcAux f n = natToChars n := by
  intro f
  induction f using Nat.strong_induction_on with
  | _ f ih =>
    intro n hn
    match f, hn with
    | f + 1, hn =>
      show ntcAux (f + 1) n = ntcAux (n + 1) n
      simp only [ntcAux]
      by_cases h10 : n < 10
      · simp [h10]
      · simp only [h10, if_false]
        have hdiv : n / 10 < n := Nat.div_lt_self (by omega) (by omega)
        rw [ih f (by omega) (n / 10) (by omega), ih n (by omega) (n / 10) (by omega)]

/-- One-step unfolding of the decimal renderer. -/
lemma natToChars_unfold (n : Nat) :
    natToChars n =
      if n < 10 then [Nat.digitChar n]
      else natToChars (n / 10) ++ [Nat.digitChar (n % 10)] := by
  show ntcAux (n + 1) n = _
  simp only [ntcAux]
  by_cases h10 : n < 10
  · simp [h10]
  · simp only [h10, if_false]
    have hdiv : n / 10 < n := Nat.div_lt_self (by omega) (by omega)
    rw [ntcAux_fuel n (n / 10) hdiv]

/-- Digit characters produced for values below ten are decimal digits. -/
lemma digitChar_isDigit {d : Nat} (h : d < 10) : isDigitCh (Nat.digitChar d) = true := by
  interval_cases d <;> decide

/-- Rendering then revaluing one digit is the identity. -/
lemma digitVal_digitChar {d : Nat} (h : d < 10) : digitVal (Nat.digitChar d) = d := by
  interval_cases d <;> decide

/-- Decimal renderings are never empty. -/
lemma natToChars_ne_nil (n : Nat) : natToChars n ≠ [] := by
  rw [natToChars_unfold]
  by_cases h10 : n < 10 <;> simp [h10]

/-- Decimal renderings consist of digits only. -/
lemma natToChars_digits : ∀ (n : Nat), ∀ c ∈ natToChars n, isDigitCh c = true := by
  intro n
  induction n using Nat.strong_induction_on with
  | _ n ih =>
    rw [natToChars_unfold]
    by_cases h10 : n < 10
    · simp only [h10, if_true, List.mem_singleton]
      intro c hc
      subst hc
      exact digitChar_isDigit h10
    · simp only [h10, if_false]
      intro c hc
      rcases List.mem_append.mp hc with hc | hc
      · exact ih (n / 10) (Nat.div_lt_self (by omega) (by omega)) c hc
      · simp only [List.mem_singleton] at hc
        subst hc
        exact digitChar_isDigit (Nat.mod_lt _ (by omega))

/-- Peeling the last digit off a digit-string value. -/
lemma digitsVal_append_digit (xs : List Char) (c : Char) :
    digitsVal (xs ++ [c]) = digitsVal xs * 10 + digitVal c := by
  simp [digitsVal, List.foldl_append]

/-- Parsing a rendered natural number returns the number: `int(str(n)) = n`. -/
lemma digitsVal_natToChars : ∀ (n : Nat), digitsVal (natToChars n) = n := by
  intro n
  induction n using Nat.strong_induction_on with
  | _ n ih =>
    rw [natToChars_unfold]
    by_cases h10 : n < 10
    · simp only [h10, if_true]
      have hd := digitVal_digitChar h10
      simp [digitsVal, hd]
    · simp only [h10, if_false]
      rw [digitsVal_append_digit, ih (n / 10) (Nat.div_lt_self (by omega) (by omega)),
        digitVal_digitChar (Nat.mod_lt _ (by omega))]
      omega

/-- Inversion of a successful numeric match: the text at the match
decomposes as literal, whitespace run, digit run, remainder. -/
lemma matchNumAt_inv {lit s : List Char} {r : List Char × List Char × List Char}
    (h : matchNumAt lit s = some r) :
    ∃ w, r.1 = lit ++ w ∧ w ≠ [] ∧ (∀ c ∈ w, isSpaceCh c = true) ∧
      r.2.1 ≠ [] ∧ (∀ c ∈ r.2.1, isDigitCh c = true) ∧
      s = lit ++ (w ++ (r.2.1 ++ r.2.2)) := by
  unfold matchNumAt at h
  split at h
  · rename_i hpre
    split at h
    · rename_i hne
      obtain ⟨t, rfl⟩ := exists_of_isPrefixOf hpre
      rw [List.drop_left] at h hne
      injection h with h2
      subst h2
      refine ⟨t.takeWhile isSpaceCh, rfl, hne.1, ?_, hne.2, ?_, ?_⟩
      · intro c hc; exact List.mem_takeWhile_imp hc
      · intro c hc; exact List.mem_takeWhile_imp hc
      · congr 1
        conv_lhs => rw [← List.takeWhile_append_dropWhile (p := isSpaceCh) (l := t)]
        congr 1
        conv_lhs =>
          rw [← List.takeWhile_append_dropWhile (p := isDigitCh) (l := t.dropWhile isSpaceCh)]
    · cases h
  · cases h

/-- Inversion of a successful string match: the text at the match
decomposes as literal, whitespace run, quoted payload, remainder. -/
lemma matchStrAt_inv {lit s : List Char} {r : List Char × List Char}
    (h : matchStrAt lit s = some r) :
    ∃ w p, r.1 = lit ++ w ∧ w ≠ [] ∧ (∀ c ∈ w, isSpaceCh c = true) ∧
      p ≠ [] ∧ (∀ c ∈ p, (c != '"') = true) ∧
      s = lit ++ (w ++ ('"' :: (p ++ ('"' :: r.2)))) := by
  unfold matchStrAt at h
  split at h
  · rename_i hpre
    obtain ⟨t, rfl⟩ := exists_of_isPrefixOf hpre
    rw [List.drop_left] at h
    split at h
    · rename_i s3 hs3
      split at h
      · rename_i rest hrest
        split at h
        · rename_i hne
          injection h with h2
          subst h2
          refine ⟨t.takeWhile isSpaceCh, s3.takeWhile (fun c => c != '"'),
            rfl, hne.1, ?_, hne.2, ?_, ?_⟩
          · intro c hc; exact List.mem_takeWhile_imp hc
          · intro c hc
            have hp := List.mem_takeWhile_imp (p := fun x => x != '"') hc
            simpa using hp
          · congr 1
            conv_lhs => rw [← List.takeWhile_append_dropWhile (p := isSpaceCh) (l := t)]
            rw [hs3]
            congr 2
            conv_lhs =>
              rw [← List.takeWhile_append_dropWhile (p := fun c => c != '"') (l := s3)]
            rw [hrest]
        · cases h
      · cases h
    · cases h
  · cases h

/-- Frame relation for one numeric substitution pass: the target text is
the source text in which some matches of `LITERAL\s+\d+` have their digit
span replaced by `new`, every other character being kept unchanged. -/
inductive FrameOk (lit new : List Char) : List Char → List Char → Prop
  | nil : FrameOk lit new [] []
  | keep {c : Char} {s t : List Char} :
      FrameOk lit new s t → FrameOk lit new (c :: s) (c :: t)
  | subst {w d s t : List Char} :
      w ≠ [] → (∀ c ∈ w, isSpaceCh c = true) →
      d ≠ [] → (∀ c ∈ d, isDigitCh c = true) →
      FrameOk lit new s t →
      FrameOk lit new (lit ++ (w ++ (d ++ s))) (lit ++ (w ++ (new ++ t)))

/-- Frame relation for one string substitution pass: the target text is
the source text in which some matches of `LITERAL\s+"[^"]+"` have their
quoted payload replaced by `new`, keeping the literal, the whitespace and
both quote delimiters. -/
inductive FrameOkS (lit new : List Char) : List Char → List Char → Prop
  | nil : FrameOkS lit new [] []
  | keep {c : Char} {s t : List Char} :
      FrameOkS lit new s t → FrameOkS lit new (c :: s) (c :: t)
  | subst {w p s t : List Char} :
      w ≠ [] → (∀ c ∈ w, isSpaceCh c = true) →
      p ≠ [] → (∀ c ∈ p, (c != '"') = true) →
      FrameOkS lit new s t →
      FrameOkS lit new
        (lit ++ (w ++ ('"' :: (p ++ ('"' :: s)))))
        (lit ++ (w ++ ('"' :: (new ++ ('"' :: t)))))

/-- Every numeric substitution pass satisfies its frame relation. -/
lemma frameOk_subNum (lit new : List Char) :
    ∀ s, FrameOk lit new s (subNum lit new s) := by
  have main : ∀ (f : Nat) (s : List Char), s.length ≤ f →
      FrameOk lit new s (subNum lit new s) := by
    intro f
    induction f with
    | zero =>
      intro s hs
      have : s = [] := List.length_eq_zero.mp (Nat.le_zero.mp hs)
      subst this
      exact FrameOk.nil
    | succ f ih =>
      intro s hs
      cases s with
      | nil => exact FrameOk.nil
      | cons c cs =>
        simp only [List.length_cons] at hs
        cases hm : matchNumAt lit (c :: cs) with
        | none =>
          rw [subNum_cons_none new hm]
          exact FrameOk.keep (ih cs (by omega))
        | some r =>
          obtain ⟨w, hg, hw1, hwa, hd1, hda, hsdec⟩ := matchNumAt_inv hm
          have hr := matchNumAt_rest_length hm
          simp only [List.length_cons] at hr
          rw [subNum_cons_some new hm, hg, hsdec]
          have hrec := ih r.2.2 (by omega)
          have hstep := @FrameOk.subst lit new _ _ _ _ hw1 hwa hd1 hda hrec
          simpa [List.append_assoc] using hstep
  intro s
  exact main s.length s (Nat.le_refl _)

/-- Every string substitution pass satisfies its frame relation. -/
lemma frameOkS_subStr (lit new : List Char) :
    ∀ s, FrameOkS lit new s (subStr lit new s) := by
  have main : ∀ (f : Nat) (s : List Char), s.length ≤ f →
      FrameOkS lit new s (subStr lit new s) := by
    intro f
    induction f with
    | zero =>
      intro s hs
      have : s = [] := List.length_eq_zero.mp (Nat.le_zero.mp hs)
      subst this
      exact FrameOkS.nil
    | succ f ih =>
      intro s hs
      cases s with
      | nil => exact FrameOkS.nil
      | cons c cs =>
        simp only [List.length_cons] at hs
        cases hm : matchStrAt lit (c :: cs) with
        | none =>
          rw [subStr_cons_none new hm]
          exact FrameOkS.keep (ih cs (by omega))
        | some r =>
          obtain ⟨w, p, hg, hw1, hwa, hp1, hpa, hsdec⟩ := matchStrAt_inv hm
          have hr := matchStrAt_rest_length hm
          simp only [List.length_cons] at hr
          rw [subStr_cons_some new hm, hg, hsdec]
          have hrec := ih r.2 (by omega)
          have hstep := @FrameOkS.subst lit new _ _ _ _ hw1 hwa hp1 hpa hrec
          simpa [List.append_assoc] using hstep
  intro s
  exact main s.length s (Nat.le_refl _)

/-- The four version fields as the script's `versions` dictionary holds
them after a successful parse. -/
structure VersionRecord where
  major : Nat
  minor : Nat
  patch : Nat
  build : Nat
  deriving DecidableEq

/-- Leftmost-match parse of one field: `re.search` then `int(group(2))`. -/
def parseField (lit content : List Char) : Option Nat :=
  (searchNum lit content).map digitsVal

/-- The parse step of `increment_version`: each missing field defaults
to `0`. -/
def parseRecord (content : List Char) : VersionRecord :=
  { major := (parseField litMajor content).getD 0,
    minor := (parseField litMinor content).getD 0,
    patch := (parseField litPatch content).getD 0,
    build := (parseField litBuild content).getD 0 }

/-- The keys and pattern literals of the script's `patterns` dictionary,
in its iteration order. -/
def fieldKeys : List (String × List Char) :=
  [("major", litMajor), ("minor", litMinor), ("patch", litPatch), ("build", litBuild)]

/-- Messages the script prints: stderr carries the missing-file error,
the per-field warnings and the unknown-increment-type error, stdout the
final confirmation. -/
inductive Msg where
  | errNotFound (file : String)
  | warnMissing (key : String)
  | errUnknownKind (kind : String)
  | confirm (kind : String) (version : List Char)
  deriving DecidableEq

/-- Warnings emitted during the parse loop, in loop order. -/
def parseWarnings (content : List Char) : List Msg :=
  fieldKeys.filterMap fun kv =>
    if searchNum kv.2 content = none then some (Msg.warnMissing kv.1) else none

/-- The `versions[increment_type] += 1` step. -/
def bumpField (increment_type : String) (v : VersionRecord) : VersionRecord :=
  if increment_type = "major" then { v with major := v.major + 1 }
  else if increment_type = "minor" then { v with minor := v.minor + 1 }
  else if increment_type = "patch" then { v with patch := v.patch + 1 }
  else { v with build := v.build + 1 }

/-- The cascading-reset step: bumping major resets minor and patch,
bumping minor resets patch. -/
def cascadeReset (increment_type : String) (v : VersionRecord) : VersionRecord :=
  if increment_type = "major" then { v with minor := 0, patch := 0 }
  else if increment_type = "minor" then { v with patch := 0 }
  else v

/-- The increment step; `none` exactly when the increment type is not a
key of the `versions` dictionary (the script's unknown-type error). -/
def incrementRecord (increment_type : String) (v : VersionRecord) : Option VersionRecord :=
  if increment_type = "major" ∨ increment_type = "minor" ∨
     increment_type = "patch" ∨ increment_type = "build" then
    some (cascadeReset increment_type (bumpField increment_type v))
  else none

/-- The rendered `version_string`: `{major}.{minor}.{patch}-{build}`. -/
def version_string (v : VersionRecord) : List Char :=
  natToChars v.major ++
    ('.' :: (natToChars v.minor ++
      ('.' :: (natToChars v.patch ++ ('-' :: natToChars v.build)))))

/-- The rendered `full_version`: the product name interpolating the
version string. -/
def full_version (v : VersionRecord) : List Char :=
  productPrefix ++ version_string v

/-- The rewrite step of the script: four numeric `re.sub` passes in
dictionary order, then the two string `re.sub` passes. -/
def renderContent (v : VersionRecord) (content : List Char) : List Char :=
  subStr litFull (full_version v)
    (subStr litStr (version_string v)
      (subNum litBuild (natToChars v.build)
        (subNum litPatch (natToChars v.patch)
          (subNum litMinor (natToChars v.minor)
            (subNum litMajor (natToChars v.major) content)))))

/-- Result of one invocation of `increment_version`: the returned
boolean, the file system after the call, and the two output streams. -/
structure RunOut where
  success : Bool
  fs : String → Option (List Char)
  stderr : List Msg
  stdout : List Msg

/-- The whole `increment_version(version_file, increment_type)` call
over an explicit file system (path ↦ contents). -/
def increment_version (fs : String → Option (List Char))
    (version_file increment_type : String) : RunOut :=
  match fs version_file with
  | none =>
    { success := false, fs := fs,
      stderr := [Msg.errNotFound version_file], stdout := [] }
  | some content =>
    match incrementRecord increment_type (parseRecord content) with
    | none =>
      { success := false, fs := fs,
        stderr := parseWarnings content ++ [Msg.errUnknownKind increment_type],
        stdout := [] }
    | some v1 =>
      { success := true,
        fs := fun q => if q = version_file then some (renderContent v1 content) else fs q,
        stderr := parseWarnings content,
        stdout := [Msg.confirm increment_type (version_string v1)] }

/-- The `__main__` block: positional arguments with defaults, exit code
`0` on success and `1` on failure. -/
def mainExit (fs : String → Option (List Char)) (argv : List String) : Nat :=
  if (increment_version fs
        (match argv with
         | _ :: vf :: _ => vf
         | _ => "version.h")
        (match argv with
         | _ :: _ :: k :: _ => k
         | _ => "build")).success
  then 0 else 1

/-- Text free of the hash character, hence free of pattern-literal starts. -/
def noHash (a : List Char) : Prop := ∀ c ∈ a, c ≠ '#'

/-- A nonempty whitespace run. -/
def spacesOK (w : List Char) : Prop := w ≠ [] ∧ ∀ c ∈ w, isSpaceCh c = true

/-- A nonempty digit run. -/
def digitsOK (d : List Char) : Prop := d ≠ [] ∧ ∀ c ∈ d, isDigitCh c = true

/-- A nonempty quoted payload: no inner quote and no hash. -/
def payloadOK (p : List Char) : Prop :=
  p ≠ [] ∧ ∀ c ∈ p, (c != '"') = true ∧ c ≠ '#'

/-- Text whose first character, if any, is not a digit — the separator
that terminates a digit span in front of it. -/
def noDigitHead (a : List Char) : Prop := ∀ c ∈ a.take 1, isDigitCh c = false

lemma noDigitHead_head? {a : List Char} (h : noDigitHead a) :
    ∀ c, a.head? = some c → isDigitCh c = false := by
  intro c hc
  have hm : c ∈ a.take 1 := by
    cases a with
    | nil => cases hc
    | cons x xs =>
      simp only [List.head?_cons, Option.some.injEq] at hc
      simp [hc]
  exact h c hm

lemma head_nonDigit_append {a r : List Char} (ha : noDigitHead a)
    (hr : ∀ c, r.head? = some c → isDigitCh c = false) :
    ∀ c, (a ++ r).head? = some c → isDigitCh c = false := by
  cases a with
  | nil => simpa using hr
  | cons x xs =>
    intro c hc
    simp only [List.cons_append, List.head?_cons, Option.some.injEq] at hc
    exact hc ▸ noDigitHead_head? ha x rfl

lemma head_lit_nonDigit {b : List Char} (hb : b.head? = some '#') (t : List Char) :
    ∀ c, (b ++ t).head? = some c → isDigitCh c = false := by
  cases b with
  | nil => cases hb
  | cons x xs =>
    simp only [List.head?_cons, Option.some.injEq] at hb
    subst hb
    intro c hc
    simp only [List.cons_append, List.head?_cons, Option.some.injEq] at hc
    subst hc
    decide

lemma noHash_of_spaces {w : List Char} (h : ∀ c ∈ w, isSpaceCh c = true) : noHash w :=
  fun c hc => space_ne_hash (h c hc)

lemma noHash_of_digits {d : List Char} (h : ∀ c ∈ d, isDigitCh c = true) : noHash d :=
  fun c hc => digit_ne_hash (h c hc)

lemma noHash_of_payload {p : List Char}
    (h : ∀ c ∈ p, (c != '"') = true ∧ c ≠ '#') : noHash p :=
  fun c hc => (h c hc).2

/-- A version file of the documented format: the six declarations in
order, with arbitrary filler text `a0 … a6` around them. -/
structure Shape where
  a0 : List Char
  w1 : List Char
  d1 : List Char
  a1 : List Char
  w2 : List Char
  d2 : List Char
  a2 : List Char
  w3 : List Char
  d3 : List Char
  a3 : List Char
  w4 : List Char
  d4 : List Char
  a4 : List Char
  w5 : List Char
  p5 : List Char
  a5 : List Char
  w6 : List Char
  p6 : List Char
  a6 : List Char
  deriving DecidableEq

/-- Suffix of the shaped text from the full-version declaration on. -/
def Shape.t5 (sh : Shape) : List Char :=
  sh.a5 ++ (litFull ++ (sh.w6 ++ ('"' :: (sh.p6 ++ ('"' :: sh.a6)))))

/-- Suffix of the shaped text from the version-string declaration on. -/
def Shape.t4 (sh : Shape) : List Char :=
  sh.a4 ++ (litStr ++ (sh.w5 ++ ('"' :: (sh.p5 ++ ('"' :: sh.t5)))))

/-- Suffix of the shaped text from the build declaration on. -/
def Shape.t3 (sh : Shape) : List Char :=
  sh.a3 ++ (litBuild ++ (sh.w4 ++ (sh.d4 ++ sh.t4)))

/-- Suffix of the shaped text from the patch declaration on. -/
def Shape.t2 (sh : Shape) : List Char :=
  sh.a2 ++ (litPatch ++ (sh.w3 ++ (sh.d3 ++ sh.t3)))

/-- Suffix of the shaped text from the minor declaration on. -/
def Shape.t1 (sh : Shape) : List Char :=
  sh.a1 ++ (litMinor ++ (sh.w2 ++ (sh.d2 ++ sh.t2)))

/-- The whole text of a shaped version file. -/
def Shape.text (sh : Shape) : List Char :=
  sh.a0 ++ (litMajor ++ (sh.w1 ++ (sh.d1 ++ sh.t1)))

/-- Well-formedness of a shaped file: filler is hash-free and does not
extend a digit run, whitespace runs are nonempty whitespace, digit runs
are nonempty digits, payloads are nonempty and quote- and hash-free. -/
structure ShapeValid (sh : Shape) : Prop where
  ha0 : noHash sh.a0
  ha1 : noHash sh.a1
  ha2 : noHash sh.a2
  ha3 : noHash sh.a3
  ha4 : noHash sh.a4
  ha5 : noHash sh.a5
  ha6 : noHash sh.a6
  hw1 : spacesOK sh.w1
  hw2 : spacesOK sh.w2
  hw3 : spacesOK sh.w3
  hw4 : spacesOK sh.w4
  hw5 : spacesOK sh.w5
  hw6 : spacesOK sh.w6
  hd1 : digitsOK sh.d1
  hd2 : digitsOK sh.d2
  hd3 : digitsOK sh.d3
  hd4 : digitsOK sh.d4
  hp5 : payloadOK sh.p5
  hp6 : payloadOK sh.p6
  hn1 : noDigitHead sh.a1
  hn2 : noDigitHead sh.a2
  hn3 : noDigitHead sh.a3
  hn4 : noDigitHead sh.a4

/-- The version record held by a shaped file. -/
def Shape.record (sh : Shape) : VersionRecord :=
  { major := digitsVal sh.d1, minor := digitsVal sh.d2,
    patch := digitsVal sh.d3, build := digitsVal sh.d4 }

/-- The shaped file after the script rewrote it for record `v`. -/
def Shape.updated (sh : Shape) (v : VersionRecord) : Shape :=
  { sh with
    d1 := natToChars v.major
    d2 := natToChars v.minor
    d3 := natToChars v.patch
    d4 := natToChars v.build
    p5 := version_string v
    p6 := full_version v }

lemma litMajor_head : litMajor.head? = some '#' := by decide

lemma litMinor_head : litMinor.head? = some '#' := by decide

lemma litPatch_head : litPatch.head? = some '#' := by decide

lemma litBuild_head : litBuild.head? = some '#' := by decide

lemma litStr_head : litStr.head? = some '#' := by decide

lemma litFull_head : litFull.head? = some '#' := by decide

lemma litMajor_tail : ∀ c ∈ litMajor.tail, c ≠ '#' := by decide

lemma litMinor_tail : ∀ c ∈ litMinor.tail, c ≠ '#' := by decide

lemma litPatch_tail : ∀ c ∈ litPatch.tail, c ≠ '#' := by decide

lemma litBuild_tail : ∀ c ∈ litBuild.tail, c ≠ '#' := by decide

lemma litStr_tail : ∀ c ∈ litStr.tail, c ≠ '#' := by decide

lemma litFull_tail : ∀ c ∈ litFull.tail, c ≠ '#' := by decide

/-- Single-character skip for `subNum`. -/
lemma subNum_skip_cons {lit : List Char} (new : List Char) (hlit : lit.head? = some '#')
    {x : Char} (hx : x ≠ '#') (s : List Char) :
    subNum lit new (x :: s) = x :: subNum lit new s :=
  subNum_cons_none new (matchNumAt_none_cons hlit hx)

/-- Single-character skip for `subStr`. -/
lemma subStr_skip_cons {lit : List Char} (new : List Char) (hlit : lit.head? = some '#')
    {x : Char} (hx : x ≠ '#') (s : List Char) :
    subStr lit new (x :: s) = x :: subStr lit new s :=
  subStr_cons_none new (matchStrAt_none_cons hlit hx)

/-- Single-character skip for `searchNum`. -/
lemma searchNum_skip_cons {lit : List Char} (hlit : lit.head? = some '#')
    {x : Char} (hx : x ≠ '#') (s : List Char) :
    searchNum lit (x :: s) = searchNum lit s := by
  have hm : matchNumAt lit (x :: s) = none := matchNumAt_none_cons hlit hx
  simp [searchNum, hm]

/-- A numeric pass whose literal conflicts with the full-version label
leaves the tail `t5` unchanged. -/
lemma subNum_fix_t5 {sh : Shape} (hv : ShapeValid sh) {lit : List Char} (n : List Char)
    (hlit : lit.head? = some '#') (hcF : headConflict litFull lit = true) :
    subNum lit n sh.t5 = sh.t5 := by
  unfold Shape.t5
  rw [subNum_skip_chunk n hlit hv.ha5,
    subNum_skip_block n hlit litFull_head litFull_tail hcF,
    subNum_skip_chunk n hlit (noHash_of_spaces hv.hw6.2),
    subNum_skip_cons n hlit (x := '"') (by decide),
    subNum_skip_chunk n hlit (noHash_of_payload hv.hp6.2),
    subNum_skip_cons n hlit (x := '"') (by decide),
    subNum_noHash_id n hlit hv.ha6]

/-- A numeric pass conflicting with the string labels leaves `t4`
unchanged. -/
lemma subNum_fix_t4 {sh : Shape} (hv : ShapeValid sh) {lit : List Char} (n : List Char)
    (hlit : lit.head? = some '#') (hcS : headConflict litStr lit = true)
    (hcF : headConflict litFull lit = true) :
    subNum lit n sh.t4 = sh.t4 := by
  unfold Shape.t4
  rw [subNum_skip_chunk n hlit hv.ha4,
    subNum_skip_block n hlit litStr_head litStr_tail hcS,
    subNum_skip_chunk n hlit (noHash_of_spaces hv.hw5.2),
    subNum_skip_cons n hlit (x := '"') (by decide),
    subNum_skip_chunk n hlit (noHash_of_payload hv.hp5.2),
    subNum_skip_cons n hlit (x := '"') (by decide),
    subNum_fix_t5 hv n hlit hcF]

/-- A numeric pass conflicting with the build and string labels leaves
`t3` unchanged. -/
lemma subNum_fix_t3 {sh : Shape} (hv : ShapeValid sh) {lit : List Char} (n : List Char)
    (hlit : lit.head? = some '#') (hcB : headConflict litBuild lit = true)
    (hcS : headConflict litStr lit = true) (hcF : headConflict litFull lit = true) :
    subNum lit n sh.t3 = sh.t3 := by
  unfold Shape.t3
  rw [subNum_skip_chunk n hlit hv.ha3,
    subNum_skip_block n hlit litBuild_head litBuild_tail hcB,
    subNum_skip_chunk n hlit (noHash_of_spaces hv.hw4.2),
    subNum_skip_chunk n hlit (noHash_of_digits hv.hd4.2),
    subNum_fix_t4 hv n hlit hcS hcF]

/-- A numeric pass conflicting with the patch, build and string labels
leaves `t2` unchanged. -/
lemma subNum_fix_t2 {sh : Shape} (hv : ShapeValid sh) {lit : List Char} (n : List Char)
    (hlit : lit.head? = some '#') (hcP : headConflict litPatch lit = true)
    (hcB : headConflict litBuild lit = true)
    (hcS : headConflict litStr lit = true) (hcF : headConflict litFull lit = true) :
    subNum lit n sh.t2 = sh.t2 := by
  unfold Shape.t2
  rw [subNum_skip_chunk n hlit hv.ha2,
    subNum_skip_block n hlit litPatch_head litPatch_tail hcP,
    subNum_skip_chunk n hlit (noHash_of_spaces hv.hw3.2),
    subNum_skip_chunk n hlit (noHash_of_digits hv.hd3.2),
    subNum_fix_t3 hv n hlit hcB hcS hcF]

/-- A numeric pass conflicting with all later labels leaves `t1`
unchanged. -/
lemma subNum_fix_t1 {sh : Shape} (hv : ShapeValid sh) {lit : List Char} (n : List Char)
    (hlit : lit.head? = some '#') (hcM : headConflict litMinor lit = true)
    (hcP : headConflict litPatch lit = true) (hcB : headConflict litBuild lit = true)
    (hcS : headConflict litStr lit = true) (hcF : headConflict litFull lit = true) :
    subNum lit n sh.t1 = sh.t1 := by
  unfold Shape.t1
  rw [subNum_skip_chunk n hlit hv.ha1,
    subNum_skip_block n hlit litMinor_head litMinor_tail hcM,
    subNum_skip_chunk n hlit (noHash_of_spaces hv.hw2.2),
    subNum_skip_chunk n hlit (noHash_of_digits hv.hd2.2),
    subNum_fix_t2 hv n hlit hcP hcB hcS hcF]

/-- A string pass whose literal conflicts with the full-version label
leaves the tail `t5` unchanged. -/
lemma subStr_fix_t5 {sh : Shape} (hv : ShapeValid sh) {lit : List Char} (q : List Char)
    (hlit : lit.head? = some '#') (hcF : headConflict litFull lit = true) :
    subStr lit q sh.t5 = sh.t5 := by
  unfold Shape.t5
  rw [subStr_skip_chunk q hlit hv.ha5,
    subStr_skip_block q hlit litFull_head litFull_tail hcF,
    subStr_skip_chunk q hlit (noHash_of_spaces hv.hw6.2),
    subStr_skip_cons q hlit (x := '"') (by decide),
    subStr_skip_chunk q hlit (noHash_of_payload hv.hp6.2),
    subStr_skip_cons q hlit (x := '"') (by decide),
    subStr_noHash_id q hlit hv.ha6]

/-- The head of `t1` is not a digit. -/
lemma t1_head_nonDigit (sh : Shape) (hv : ShapeValid sh) :
    ∀ c, sh.t1.head? = some c → isDigitCh c = false := by
  unfold Shape.t1
  exact head_nonDigit_append hv.hn1 (head_lit_nonDigit litMinor_head _)

/-- The head of `t2` is not a digit. -/
lemma t2_head_nonDigit (sh : Shape) (hv : ShapeValid sh) :
    ∀ c, sh.t2.head? = some c → isDigitCh c = false := by
  unfold Shape.t2
  exact head_nonDigit_append hv.hn2 (head_lit_nonDigit litPatch_head _)

/-- The head of `t3` is not a digit. -/
lemma t3_head_nonDigit (sh : Shape) (hv : ShapeValid sh) :
    ∀ c, sh.t3.head? = some c → isDigitCh c = false := by
  unfold Shape.t3
  exact head_nonDigit_append hv.hn3 (head_lit_nonDigit litBuild_head _)

/-- The head of `t4` is not a digit. -/
lemma t4_head_nonDigit (sh : Shape) (hv : ShapeValid sh) :
    ∀ c, sh.t4.head? = some c → isDigitCh c = false := by
  unfold Shape.t4
  exact head_nonDigit_append hv.hn4 (head_lit_nonDigit litStr_head _)

/-- The major pass rewrites exactly the major digit span. -/
lemma subNum_pass_major (sh : Shape) (hv : ShapeValid sh) (n : List Char) :
    subNum litMajor n sh.text = ({ sh with d1 := n } : Shape).text := by
  show subNum litMajor n (sh.a0 ++ (litMajor ++ (sh.w1 ++ (sh.d1 ++ sh.t1)))) = _
  rw [subNum_skip_chunk n litMajor_head hv.ha0,
    subNum_here n litMajor_head hv.hw1.1 hv.hw1.2 hv.hd1.1 hv.hd1.2 (t1_head_nonDigit sh hv),
    subNum_fix_t1 hv n litMajor_head (by decide) (by decide) (by decide) (by decide) (by decide)]
  rfl

/-- The minor pass rewrites exactly the minor digit span. -/
lemma subNum_pass_minor (sh : Shape) (hv : ShapeValid sh) (n : List Char) :
    subNum litMinor n sh.text = ({ sh with d2 := n } : Shape).text := by
  show subNum litMinor n (sh.a0 ++ (litMajor ++ (sh.w1 ++ (sh.d1 ++ sh.t1)))) = _
  rw [subNum_skip_chunk n litMinor_head hv.ha0,
    subNum_skip_block n litMinor_head litMajor_head litMajor_tail (by decide),
    subNum_skip_chunk n litMinor_head (noHash_of_spaces hv.hw1.2),
    subNum_skip_chunk n litMinor_head (noHash_of_digits hv.hd1.2),
    show sh.t1 = sh.a1 ++ (litMinor ++ (sh.w2 ++ (sh.d2 ++ sh.t2))) from rfl,
    subNum_skip_chunk n litMinor_head hv.ha1,
    subNum_here n litMinor_head hv.hw2.1 hv.hw2.2 hv.hd2.1 hv.hd2.2 (t2_head_nonDigit sh hv),
    subNum_fix_t2 hv n litMinor_head (by decide) (by decide) (by decide) (by decide)]
  rfl

/-- The patch pass rewrites exactly the patch digit span. -/
lemma subNum_pass_patch (sh : Shape) (hv : ShapeValid sh) (n : List Char) :
    subNum litPatch n sh.text = ({ sh with d3 := n } : Shape).text := by
  show subNum litPatch n (sh.a0 ++ (litMajor ++ (sh.w1 ++ (sh.d1 ++ sh.t1)))) = _
  rw [subNum_skip_chunk n litPatch_head hv.ha0,
    subNum_skip_block n litPatch_head litMajor_head litMajor_tail (by decide),
    subNum_skip_chunk n litPatch_head (noHash_of_spaces hv.hw1.2),
    subNum_skip_chunk n litPatch_head (noHash_of_digits hv.hd1.2),
    show sh.t1 = sh.a1 ++ (litMinor ++ (sh.w2 ++ (sh.d2 ++ sh.t2))) from rfl,
    subNum_skip_chunk n litPatch_head hv.ha1,
    subNum_skip_block n litPatch_head litMinor_head litMinor_tail (by decide),
    subNum_skip_chunk n litPatch_head (noHash_of_spaces hv.hw2.2),
    subNum_skip_chunk n litPatch_head (noHash_of_digits hv.hd2.2),
    show sh.t2 = sh.a2 ++ (litPatch ++ (sh.w3 ++ (sh.d3 ++ sh.t3))) from rfl,
    subNum_skip_chunk n litPatch_head hv.ha2,
    subNum_here n litPatch_head hv.hw3.1 hv.hw3.2 hv.hd3.1 hv.hd3.2 (t3_head_nonDigit sh hv),
    subNum_fix_t3 hv n litPatch_head (by decide) (by decide) (by decide)]
  rfl

/-- The build pass rewrites exactly the build digit span. -/
lemma subNum_pass_build (sh : Shape) (hv : ShapeValid sh) (n : List Char) :
    subNum litBuild n sh.text = ({ sh with d4 := n } : Shape).text := by
  show subNum litBuild n (sh.a0 ++ (litMajor ++ (sh.w1 ++ (sh.d1 ++ sh.t1)))) = _
  rw [subNum_skip_chunk n litBuild_head hv.ha0,
    subNum_skip_block n litBuild_head litMajor_head litMajor_tail (by decide),
    subNum_skip_chunk n litBuild_head (noHash_of_spaces hv.hw1.2),
    subNum_skip_chunk n litBuild_head (noHash_of_digits hv.hd1.2),
    show sh.t1 = sh.a1 ++ (litMinor ++ (sh.w2 ++ (sh.d2 ++ sh.t2))) from rfl,
    subNum_skip_chunk n litBuild_head hv.ha1,
    subNum_skip_block n litBuild_head litMinor_head litMinor_tail (by decide),
    subNum_skip_chunk n litBuild_head (noHash_of_spaces hv.hw2.2),
    subNum_skip_chunk n litBuild_head (noHash_of_digits hv.hd2.2),
    show sh.t2 = sh.a2 ++ (litPatch ++ (sh.w3 ++ (sh.d3 ++ sh.t3))) from rfl,
    subNum_skip_chunk n litBuild_head hv.ha2,
    subNum_skip_block n litBuild_head litPatch_head litPatch_tail (by decide),
    subNum_skip_chunk n litBuild_head (noHash_of_spaces hv.hw3.2),
    subNum_skip_chunk n litBuild_head (noHash_of_digits hv.hd3.2),
    show sh.t3 = sh.a3 ++ (litBuild ++ (sh.w4 ++ (sh.d4 ++ sh.t4))) from rfl,
    subNum_skip_chunk n litBuild_head hv.ha3,
    subNum_here n litBuild_head hv.hw4.1 hv.hw4.2 hv.hd4.1 hv.hd4.2 (t4_head_nonDigit sh hv),
    subNum_fix_t4 hv n litBuild_head (by decide) (by decide)]
  rfl

/-- The version-string pass rewrites exactly the quoted payload of the
version-string declaration. -/
lemma subStr_pass_str (sh : Shape) (hv : ShapeValid sh) (q : List Char) :
    subStr litStr q sh.text = ({ sh with p5 := q } : Shape).text := by
  show subStr litStr q (sh.a0 ++ (litMajor ++ (sh.w1 ++ (sh.d1 ++ sh.t1)))) = _
  rw [subStr_skip_chunk q litStr_head hv.ha0,
    subStr_skip_block q litStr_head litMajor_head litMajor_tail (by decide),
    subStr_skip_chunk q litStr_head (noHash_of_spaces hv.hw1.2),
    subStr_skip_chunk q litStr_head (noHash_of_digits hv.hd1.2),
    show sh.t1 = sh.a1 ++ (litMinor ++ (sh.w2 ++ (sh.d2 ++ sh.t2))) from rfl,
    subStr_skip_chunk q litStr_head hv.ha1,
    subStr_skip_block q litStr_head litMinor_head litMinor_tail (by decide),
    subStr_skip_chunk q litStr_head (noHash_of_spaces hv.hw2.2),
    subStr_skip_chunk q litStr_head (noHash_of_digits hv.hd2.2),
    show sh.t2 = sh.a2 ++ (litPatch ++ (sh.w3 ++ (sh.d3 ++ sh.t3))) from rfl,
    subStr_skip_chunk q litStr_head hv.ha2,
    subStr_skip_block q litStr_head litPatch_head litPatch_tail (by decide),
    subStr_skip_chunk q litStr_head (noHash_of_spaces hv.hw3.2),
    subStr_skip_chunk q litStr_head (noHash_of_digits hv.hd3.2),
    show sh.t3 = sh.a3 ++ (litBuild ++ (sh.w4 ++ (sh.d4 ++ sh.t4))) from rfl,
    subStr_skip_chunk q litStr_head hv.ha3,
    subStr_skip_block q litStr_head litBuild_head litBuild_tail (by decide),
    subStr_skip_chunk q litStr_head (noHash_of_spaces hv.hw4.2),
    subStr_skip_chunk q litStr_head (noHash_of_digits hv.hd4.2),
    show sh.t4 = sh.a4 ++ (litStr ++ (sh.w5 ++ ('"' :: (sh.p5 ++ ('"' :: sh.t5))))) from rfl,
    subStr_skip_chunk q litStr_head hv.ha4,
    subStr_here q litStr_head hv.hw5.1 hv.hw5.2 hv.hp5.1
      (fun c hc => (hv.hp5.2 c hc).1),
    subStr_fix_t5 hv q litStr_head (by decide)]
  rfl

/-- The full-version pass rewrites exactly the quoted payload of the
full-version declaration. -/
lemma subStr_pass_full (sh : Shape) (hv : ShapeValid sh) (q : List Char) :
    subStr litFull q sh.text = ({ sh with p6 := q } : Shape).text := by
  show subStr litFull q (sh.a0 ++ (litMajor ++ (sh.w1 ++ (sh.d1 ++ sh.t1)))) = _
  rw [subStr_skip_chunk q litFull_head hv.ha0,
    subStr_skip_block q litFull_head litMajor_head litMajor_tail (by decide),
    subStr_skip_chunk q litFull_head (noHash_of_spaces hv.hw1.2),
    subStr_skip_chunk q litFull_head (noHash_of_digits hv.hd1.2),
    show sh.t1 = sh.a1 ++ (litMinor ++ (sh.w2 ++ (sh.d2 ++ sh.t2))) from rfl,
    subStr_skip_chunk q litFull_head hv.ha1,
    subStr_skip_block q litFull_head litMinor_head litMinor_tail (by decide),
    subStr_skip_chunk q litFull_head (noHash_of_spaces hv.hw2.2),
    subStr_skip_chunk q litFull_head (noHash_of_digits hv.hd2.2),
    show sh.t2 = sh.a2 ++ (litPatch ++ (sh.w3 ++ (sh.d3 ++ sh.t3))) from rfl,
    subStr_skip_chunk q litFull_head hv.ha2,
    subStr_skip_block q litFull_head litPatch_head litPatch_tail (by decide),
    subStr_skip_chunk q litFull_head (noHash_of_spaces hv.hw3.2),
    subStr_skip_chunk q litFull_head (noHash_of_digits hv.hd3.2),
    show sh.t3 = sh.a3 ++ (litBuild ++ (sh.w4 ++ (sh.d4 ++ sh.t4))) from rfl,
    subStr_skip_chunk q litFull_head hv.ha3,
    subStr_skip_block q litFull_head litBuild_head litBuild_tail (by decide),
    subStr_skip_chunk q litFull_head (noHash_of_spaces hv.hw4.2),
    subStr_skip_chunk q litFull_head (noHash_of_digits hv.hd4.2),
    show sh.t4 = sh.a4 ++ (litStr ++ (sh.w5 ++ ('"' :: (sh.p5 ++ ('"' :: sh.t5))))) from rfl,
    subStr_skip_chunk q litFull_head hv.ha4,
    subStr_skip_block q litFull_head litStr_head litStr_tail (by decide),
    subStr_skip_chunk q litFull_head (noHash_of_spaces hv.hw5.2),
    subStr_skip_cons q litFull_head (x := '"') (by decide),
    subStr_skip_chunk q litFull_head (noHash_of_payload hv.hp5.2),
    subStr_skip_cons q litFull_head (x := '"') (by decide),
    show sh.t5 = sh.a5 ++ (litFull ++ (sh.w6 ++ ('"' :: (sh.p6 ++ ('"' :: sh.a6))))) from rfl,
    subStr_skip_chunk q litFull_head hv.ha5,
    subStr_here q litFull_head hv.hw6.1 hv.hw6.2 hv.hp6.1
      (fun c hc => (hv.hp6.2 c hc).1),
    subStr_noHash_id q litFull_head hv.ha6]
  rfl

/-- Parsing the major field of a shaped file returns its digit span. -/
lemma searchNum_shape_major (sh : Shape) (hv : ShapeValid sh) :
    searchNum litMajor sh.text = some sh.d1 := by
  show searchNum litMajor (sh.a0 ++ (litMajor ++ (sh.w1 ++ (sh.d1 ++ sh.t1)))) = _
  rw [searchNum_skip_chunk litMajor_head hv.ha0,
    searchNum_here litMajor_head hv.hw1.1 hv.hw1.2 hv.hd1.1 hv.hd1.2 (t1_head_nonDigit sh hv)]

/-- Parsing the minor field of a shaped file returns its digit span. -/
lemma searchNum_shape_minor (sh : Shape) (hv : ShapeValid sh) :
    searchNum litMinor sh.text = some sh.d2 := by
  show searchNum litMinor (sh.a0 ++ (litMajor ++ (sh.w1 ++ (sh.d1 ++ sh.t1)))) = _
  rw [searchNum_skip_chunk litMinor_head hv.ha0,
    searchNum_skip_block litMinor_head litMajor_head litMajor_tail (by decide),
    searchNum_skip_chunk litMinor_head (noHash_of_spaces hv.hw1.2),
    searchNum_skip_chunk litMinor_head (noHash_of_digits hv.hd1.2),
    show sh.t1 = sh.a1 ++ (litMinor ++ (sh.w2 ++ (sh.d2 ++ sh.t2))) from rfl,
    searchNum_skip_chunk litMinor_head hv.ha1,
    searchNum_here litMinor_head hv.hw2.1 hv.hw2.2 hv.hd2.1 hv.hd2.2 (t2_head_nonDigit sh hv)]

/-- Parsing the patch field of a shaped file returns its digit span. -/
lemma searchNum_shape_patch (sh : Shape) (hv : ShapeValid sh) :
    searchNum litPatch sh.text = some sh.d3 := by
  show searchNum litPatch (sh.a0 ++ (litMajor ++ (sh.w1 ++ (sh.d1 ++ sh.t1)))) = _
  rw [searchNum_skip_chunk litPatch_head hv.ha0,
    searchNum_skip_block litPatch_head litMajor_head litMajor_tail (by decide),
    searchNum_skip_chunk litPatch_head (noHash_of_spaces hv.hw1.2),
    searchNum_skip_chunk litPatch_head (noHash_of_digits hv.hd1.2),
    show sh.t1 = sh.a1 ++ (litMinor ++ (sh.w2 ++ (sh.d2 ++ sh.t2))) from rfl,
    searchNum_skip_chunk litPatch_head hv.ha1,
    searchNum_skip_block litPatch_head litMinor_head litMinor_tail (by decide),
    searchNum_skip_chunk litPatch_head (noHash_of_spaces hv.hw2.2),
    searchNum_skip_chunk litPatch_head (noHash_of_digits hv.hd2.2),
    show sh.t2 = sh.a2 ++ (litPatch ++ (sh.w3 ++ (sh.d3 ++ sh.t3))) from rfl,
    searchNum_skip_chunk litPatch_head hv.ha2,
    searchNum_here litPatch_head hv.hw3.1 hv.hw3.2 hv.hd3.1 hv.hd3.2 (t3_head_nonDigit sh hv)]

/-- Parsing the build field of a shaped file returns its digit span. -/
lemma searchNum_shape_build (sh : Shape) (hv : ShapeValid sh) :
    searchNum litBuild sh.text = some sh.d4 := by
  show searchNum litBuild (sh.a0 ++ (litMajor ++ (sh.w1 ++ (sh.d1 ++ sh.t1)))) = _
  rw [searchNum_skip_chunk litBuild_head hv.ha0,
    searchNum_skip_block litBuild_head litMajor_head litMajor_tail (by decide),
    searchNum_skip_chunk litBuild_head (noHash_of_spaces hv.hw1.2),
    searchNum_skip_chunk litBuild_head (noHash_of_digits hv.hd1.2),
    show sh.t1 = sh.a1 ++ (litMinor ++ (sh.w2 ++ (sh.d2 ++ sh.t2))) from rfl,
    searchNum_skip_chunk litBuild_head hv.ha1,
    searchNum_skip_block litBuild_head litMinor_head litMinor_tail (by decide),
    searchNum_skip_chunk litBuild_head (noHash_of_spaces hv.hw2.2),
    searchNum_skip_chunk litBuild_head (noHash_of_digits hv.hd2.2),
    show sh.t2 = sh.a2 ++ (litPatch ++ (sh.w3 ++ (sh.d3 ++ sh.t3))) from rfl,
    searchNum_skip_chunk litBuild_head hv.ha2,
    searchNum_skip_block litBuild_head litPatch_head litPatch_tail (by decide),
    searchNum_skip_chunk litBuild_head (noHash_of_spaces hv.hw3.2),
    searchNum_skip_chunk litBuild_head (noHash_of_digits hv.hd3.2),
    show sh.t3 = sh.a3 ++ (litBuild ++ (sh.w4 ++ (sh.d4 ++ sh.t4))) from rfl,
    searchNum_skip_chunk litBuild_head hv.ha3,
    searchNum_here litBuild_head hv.hw4.1 hv.hw4.2 hv.hd4.1 hv.hd4.2 (t4_head_nonDigit sh hv)]

/-- Parsing a shaped file yields its record, each field from its own
digit span. -/
lemma parseRecord_shape (sh : Shape) (hv : ShapeValid sh) :
    parseRecord sh.text = sh.record := by
  unfold parseRecord parseField Shape.record
  rw [searchNum_shape_major sh hv, searchNum_shape_minor sh hv,
    searchNum_shape_patch sh hv, searchNum_shape_build sh hv]
  rfl

/-- Parsing a shaped file emits no warning. -/
lemma parseWarnings_shape (sh : Shape) (hv : ShapeValid sh) :
    parseWarnings sh.text = [] := by
  unfold parseWarnings fieldKeys
  simp [searchNum_shape_major sh hv, searchNum_shape_minor sh hv,
    searchNum_shape_patch sh hv, searchNum_shape_build sh hv]

/-- Decimal renderings are valid digit spans. -/
lemma digitsOK_natToChars (n : Nat) : digitsOK (natToChars n) :=
  ⟨natToChars_ne_nil n, natToChars_digits n⟩

/-- The rendered version string is a valid quoted payload. -/
lemma payloadOK_version_string (v : VersionRecord) : payloadOK (version_string v) := by
  constructor
  · intro h
    unfold version_string at h
    rcases List.append_eq_nil.mp h with ⟨h1, _⟩
    exact natToChars_ne_nil v.major h1
  · intro c hc
    unfold version_string at hc
    simp only [List.mem_append, List.mem_cons] at hc
    have hdig : ∀ m : Nat, c ∈ natToChars m → (c != '"') = true ∧ c ≠ '#' := by
      intro m hm
      have hd := natToChars_digits m c hm
      exact ⟨digit_ne_quote hd, digit_ne_hash hd⟩
    rcases hc with h | h | h | h | h | h | h <;>
      first
      | exact hdig _ h
      | (subst h; exact ⟨by decide, by decide⟩)

/-- The rendered full version is a valid quoted payload. -/
lemma payloadOK_full_version (v : VersionRecord) : payloadOK (full_version v) := by
  have hvs := payloadOK_version_string v
  constructor
  · intro h
    unfold full_version at h
    rcases List.append_eq_nil.mp h with ⟨h1, _⟩
    exact (by decide : productPrefix ≠ []) h1
  · intro c hc
    unfold full_version at hc
    rcases List.mem_append.mp hc with h | h
    · exact (by decide : ∀ c ∈ productPrefix, (c != '"') = true ∧ c ≠ '#') c h
    · exact hvs.2 c h

lemma shapeValid_d1 {sh : Shape} (hv : ShapeValid sh) {n : List Char} (hn : digitsOK n) :
    ShapeValid ({ sh with d1 := n }) :=
  { hv with hd1 := hn }

lemma shapeValid_d2 {sh : Shape} (hv : ShapeValid sh) {n : List Char} (hn : digitsOK n) :
    ShapeValid ({ sh with d2 := n }) :=
  { hv with hd2 := hn }

lemma shapeValid_d3 {sh : Shape} (hv : ShapeValid sh) {n : List Char} (hn : digitsOK n) :
    ShapeValid ({ sh with d3 := n }) :=
  { hv with hd3 := hn }

lemma shapeValid_d4 {sh : Shape} (hv : ShapeValid sh) {n : List Char} (hn : digitsOK n) :
    ShapeValid ({ sh with d4 := n }) :=
  { hv with hd4 := hn }

lemma shapeValid_p5 {sh : Shape} (hv : ShapeValid sh) {q : List Char} (hq : payloadOK q) :
    ShapeValid ({ sh with p5 := q }) :=
  { hv with hp5 := hq }

lemma shapeValid_p6 {sh : Shape} (hv : ShapeValid sh) {q : List Char} (hq : payloadOK q) :
    ShapeValid ({ sh with p6 := q }) :=
  { hv with hp6 := hq }

/-- The rewritten shape is again well formed. -/
lemma shapeValid_updated (sh : Shape) (hv : ShapeValid sh) (v : VersionRecord) :
    ShapeValid (sh.updated v) :=
  shapeValid_p6
    (shapeValid_p5
      (shapeValid_d4
        (shapeValid_d3
          (shapeValid_d2
            (shapeValid_d1 hv (digitsOK_natToChars v.major))
            (digitsOK_natToChars v.minor))
          (digitsOK_natToChars v.patch))
        (digitsOK_natToChars v.build))
      (payloadOK_version_string v))
    (payloadOK_full_version v)

/-- The record stored in the rewritten shape is the record that was
written into it. -/
lemma record_updated (sh : Shape) (v : VersionRecord) : (sh.updated v).record = v := by
  unfold Shape.updated Shape.record
  simp [digitsVal_natToChars]

/-- The complete rewrite step on a shaped file: each digit span becomes
the decimal rendering of its field, and the two quoted payloads become
the rendered version strings; everything else is untouched. -/
lemma renderContent_shape (sh : Shape) (hv : ShapeValid sh) (v : VersionRecord) :
    renderContent v sh.text = (sh.updated v).text := by
  have hv1 := shapeValid_d1 hv (digitsOK_natToChars v.major)
  have hv2 := shapeValid_d2 hv1 (digitsOK_natToChars v.minor)
  have hv3 := shapeValid_d3 hv2 (digitsOK_natToChars v.patch)
  have hv4 := shapeValid_d4 hv3 (digitsOK_natToChars v.build)
  have hv5 := shapeValid_p5 hv4 (payloadOK_version_string v)
  unfold renderContent
  rw [subNum_pass_major sh hv (natToChars v.major),
    subNum_pass_minor _ hv1 (natToChars v.minor),
    subNum_pass_patch _ hv2 (natToChars v.patch),
    subNum_pass_build _ hv3 (natToChars v.build),
    subStr_pass_str _ hv4 (version_string v),
    subStr_pass_full _ hv5 (full_version v)]
  rfl

/-- A successful run on a shaped file: returns success, rewrites exactly
the shaped file at the given path, warns about nothing, and prints the
confirmation with the new version string. -/
lemma increment_version_shape {fs : String → Option (List Char)} {vf k : String}
    {sh : Shape} {v1 : VersionRecord}
    (hfs : fs vf = some sh.text) (hv : ShapeValid sh)
    (h1 : incrementRecord k (parseRecord sh.text) = some v1) :
    increment_version fs vf k =
      { success := true,
        fs := fun q => if q = vf then some ((sh.updated v1).text) else fs q,
        stderr := [],
        stdout := [Msg.confirm k (version_string v1)] } := by
  unfold increment_version
  rw [hfs]
  simp only [h1, parseWarnings_shape sh hv, renderContent_shape sh hv v1]

/-- A minimal concrete well-formed version file used as a test vector;
its record is (1, 2, 3, 9). -/
def exShape : Shape where
  a0 := []
  w1 := [' ']
  d1 := ['1']
  a1 := ['\n']
  w2 := [' ']
  d2 := ['2']
  a2 := ['\n']
  w3 := [' ']
  d3 := ['3']
  a3 := ['\n']
  w4 := [' ']
  d4 := ['9']
  a4 := ['\n']
  w5 := [' ']
  p5 := ['x']
  a5 := ['\n']
  w6 := [' ']
  p6 := ['y']
  a6 := ['\n']

/-- The test shape is well formed. -/
lemma exShape_valid : ShapeValid exShape := by
  constructor <;> first
  | exact (by decide : ∀ c ∈ ([] : List Char), c ≠ '#')
  | exact (by decide : ∀ c ∈ ['\n'], c ≠ '#')
  | exact ⟨by decide, by decide⟩
  | exact (by decide : ∀ c ∈ (['\n'] : List Char).take 1, isDigitCh c = false)

/-- A one-file file system holding the test shape at `version.h`. -/
def exFs : String → Option (List Char) :=
  fun q => if q = "version.h" then some exShape.text else none

/-- A file system with no files at all. -/
def emptyFs : String → Option (List Char) := fun _ => none

/-- A one-file file system holding an empty file at `version.h`. -/
def emptyFileFs : String → Option (List Char) :=
  fun q => if q = "version.h" then some [] else none

/-- C1: for every starting record, incrementing `major` increases major
by exactly 1, resets minor and patch to 0 and keeps build; incrementing
`minor` increases minor by exactly 1, resets patch to 0 and keeps major
and build (the cascading reset policy). -/
theorem claim_c1_cascading_major_minor (v : VersionRecord) :
    incrementRecord "major" v =
      some { major := v.major + 1, minor := 0, patch := 0, build := v.build } ∧
    incrementRecord "minor" v =
      some { major := v.major, minor := v.minor + 1, patch := 0, build := v.build } := by
  constructor <;> rfl

/-- C2: for every starting record, incrementing `build` increases build
by exactly 1 and keeps major, minor and patch; incrementing `patch`
increases patch by exactly 1 and keeps major, minor and build. -/
theorem claim_c2_build_patch (v : VersionRecord) :
    incrementRecord "build" v =
      some { major := v.major, minor := v.minor, patch := v.patch, build := v.build + 1 } ∧
    incrementRecord "patch" v =
      some { major := v.major, minor := v.minor, patch := v.patch + 1, build := v.build } := by
  constructor <;> rfl

/-- C3: frame property of the rewrite.  For every input text and every
record, the rewritten text is reachable from the input by the six
substitution passes, each of which only replaces the digit span,
respectively the quoted payload, of a match of its pattern and keeps
every other byte — declaration literals, whitespace runs and quote
delimiters included — unchanged (`FrameOk`/`FrameOkS`). -/
theorem claim_c3_rewrite_frame (v : VersionRecord) (s : List Char) :
    ∃ t1 t2 t3 t4 t5,
      FrameOk litMajor (natToChars v.major) s t1 ∧
      FrameOk litMinor (natToChars v.minor) t1 t2 ∧
      FrameOk litPatch (natToChars v.patch) t2 t3 ∧
      FrameOk litBuild (natToChars v.build) t3 t4 ∧
      FrameOkS litStr (version_string v) t4 t5 ∧
      FrameOkS litFull (full_version v) t5 (renderContent v s) := by
  unfold renderContent
  exact ⟨_, _, _, _, _,
    frameOk_subNum _ _ _, frameOk_subNum _ _ _, frameOk_subNum _ _ _,
    frameOk_subNum _ _ _, frameOkS_subStr _ _ _, frameOkS_subStr _ _ _⟩

/-- C4: for every increment kind outside the four known ones, the run
reports the unknown-kind error on stderr, returns failure, exits with
code 1, prints no confirmation, and leaves the file system untouched. -/
theorem claim_c4_unknown_kind (fs : String → Option (List Char))
    (vf k prog : String) (content : List Char)
    (hfs : fs vf = some content)
    (hk : k ≠ "major" ∧ k ≠ "minor" ∧ k ≠ "patch" ∧ k ≠ "build") :
    (increment_version fs vf k).success = false ∧
    (increment_version fs vf k).fs = fs ∧
    Msg.errUnknownKind k ∈ (increment_version fs vf k).stderr ∧
    (increment_version fs vf k).stdout = [] ∧
    mainExit fs [prog, vf, k] = 1 := by
  have hcond : ¬(k = "major" ∨ k = "minor" ∨ k = "patch" ∨ k = "build") := by
    rintro (h | h | h | h)
    · exact hk.1 h
    · exact hk.2.1 h
    · exact hk.2.2.1 h
    · exact hk.2.2.2 h
  have hinc : incrementRecord k (parseRecord content) = none := by
    unfold incrementRecord
    rw [if_neg hcond]
  have hrun : increment_version fs vf k =
      { success := false, fs := fs,
        stderr := parseWarnings content ++ [Msg.errUnknownKind k], stdout := [] } := by
    unfold increment_version
    rw [hfs]
    simp only [hinc]
  refine ⟨by rw [hrun], by rw [hrun], ?_, by rw [hrun], ?_⟩
  · rw [hrun]
    exact List.mem_append_right _ (by simp)
  · show (if (increment_version fs vf k).success then 0 else 1) = 1
    rw [hrun]
    rfl

/-- C5: for every path with no file, the run reports the not-found error
on stderr, returns failure, exits with code 1, modifies no file and
creates none at the path. -/
theorem claim_c5_missing_file (fs : String → Option (List Char)) (vf k prog : String)
    (hfs : fs vf = none) :
    (increment_version fs vf k).success = false ∧
    (increment_version fs vf k).fs = fs ∧
    (increment_version fs vf k).fs vf = none ∧
    (increment_version fs vf k).stderr = [Msg.errNotFound vf] ∧
    mainExit fs [prog, vf, k] = 1 := by
  have hrun : increment_version fs vf k =
      { success := false, fs := fs, stderr := [Msg.errNotFound vf], stdout := [] } := by
    unfold increment_version
    rw [hfs]
  refine ⟨by rw [hrun], by rw [hrun], ?_, by rw [hrun], ?_⟩
  · rw [hrun]
    exact hfs
  · show (if (increment_version fs vf k).success then 0 else 1) = 1
    rw [hrun]
    rfl

/-- Witness for C4 at the concrete kind `bogus` on the test file. -/
theorem claim_c4_unknown_kind_witness :
    (increment_version exFs "version.h" "bogus").success = false ∧
    (increment_version exFs "version.h" "bogus").fs = exFs ∧
    Msg.errUnknownKind "bogus" ∈ (increment_version exFs "version.h" "bogus").stderr ∧
    (increment_version exFs "version.h" "bogus").stdout = [] ∧
    mainExit exFs ["increment_version.py", "version.h", "bogus"] = 1 :=
  claim_c4_unknown_kind exFs "version.h" "bogus" "increment_version.py" exShape.text
    (by rfl) (by decide)

/-- Witness for C5 on an empty file system. -/
theorem claim_c5_missing_file_witness :
    (increment_version emptyFs "version.h" "build").success = false ∧
    (increment_version emptyFs "version.h" "build").fs = emptyFs ∧
    (increment_version emptyFs "version.h" "build").fs "version.h" = none ∧
    (increment_version emptyFs "version.h" "build").stderr = [Msg.errNotFound "version.h"] ∧
    mainExit emptyFs ["increment_version.py", "version.h", "build"] = 1 :=
  claim_c5_missing_file emptyFs "version.h" "build" "increment_version.py" rfl

/-- C6: after a successful increment, `version_string` is rendered as
`{major}.{minor}.{patch}-{build}` from the four updated fields,
`full_version` interpolates it after the product name, and the file is
rewritten with the quoted payloads of the version-string and
full-version declarations replaced by those computed values, keeping the
declaration labels and quote delimiters verbatim. -/
theorem claim_c6_version_strings {fs : String → Option (List Char)} {vf k : String}
    {sh : Shape} {v1 : VersionRecord}
    (hfs : fs vf = some sh.text) (hv : ShapeValid sh)
    (h1 : incrementRecord k (parseRecord sh.text) = some v1) :
    version_string v1 =
      natToChars v1.major ++ ('.' :: (natToChars v1.minor ++
        ('.' :: (natToChars v1.patch ++ ('-' :: natToChars v1.build))))) ∧
    full_version v1 = productPrefix ++ version_string v1 ∧
    (increment_version fs vf k).fs vf =
      some (({ sh with
        d1 := natToChars v1.major
        d2 := natToChars v1.minor
        d3 := natToChars v1.patch
        d4 := natToChars v1.build
        p5 := version_string v1
        p6 := full_version v1 } : Shape).text) := by
  refine ⟨rfl, rfl, ?_⟩
  rw [increment_version_shape hfs hv h1]
  simp [Shape.updated]

/-- Witness for C6: incrementing `patch` on the (1, 2, 3, 9) test file. -/
theorem claim_c6_version_strings_witness :
    version_string ⟨1, 2, 4, 9⟩ =
      natToChars 1 ++ ('.' :: (natToChars 2 ++
        ('.' :: (natToChars 4 ++ ('-' :: natToChars 9))))) ∧
    full_version ⟨1, 2, 4, 9⟩ = productPrefix ++ version_string ⟨1, 2, 4, 9⟩ ∧
    (increment_version exFs "version.h" "patch").fs "version.h" =
      some (({ exShape with
        d1 := natToChars 1
        d2 := natToChars 2
        d3 := natToChars 4
        d4 := natToChars 9
        p5 := version_string ⟨1, 2, 4, 9⟩
        p6 := full_version ⟨1, 2, 4, 9⟩ } : Shape).text) :=
  @claim_c6_version_strings exFs "version.h" "patch" exShape ⟨1, 2, 4, 9⟩ (by rfl) exShape_valid (by decide)

/-- The four fields, with their dictionary keys, pattern literals and
record projections. -/
inductive VField where
  | fMajor
  | fMinor
  | fPatch
  | fBuild

/-- The dictionary key of a field. -/
def VField.key : VField → String
  | .fMajor => "major"
  | .fMinor => "minor"
  | .fPatch => "patch"
  | .fBuild => "build"

/-- The pattern literal of a field. -/
def VField.lit : VField → List Char
  | .fMajor => litMajor
  | .fMinor => litMinor
  | .fPatch => litPatch
  | .fBuild => litBuild

/-- The record projection of a field. -/
def VField.get : VField → VersionRecord → Nat
  | .fMajor, v => v.major
  | .fMinor, v => v.minor
  | .fPatch, v => v.patch
  | .fBuild, v => v.build

/-- C7: a missing field pattern is non-fatal: the parse assigns the field
the value 0, a warning for it is emitted on stderr, and the run still
succeeds (all four fields being present in the parsed record by
construction). -/
theorem claim_c7_missing_field_nonfatal (fs : String → Option (List Char)) (vf : String)
    (content : List Char) (f : VField)
    (hfs : fs vf = some content) (hmiss : searchNum f.lit content = none) :
    f.get (parseRecord content) = 0 ∧
    Msg.warnMissing f.key ∈ (increment_version fs vf "build").stderr ∧
    (increment_version fs vf "build").success = true := by
  have hb : incrementRecord "build" (parseRecord content) =
      some (cascadeReset "build" (bumpField "build" (parseRecord content))) := by
    unfold incrementRecord
    rw [if_pos (by tauto)]
  have hstderr : (increment_version fs vf "build").stderr = parseWarnings content := by
    unfold increment_version
    rw [hfs]
    simp only [hb]
  have hsucc : (increment_version fs vf "build").success = true := by
    unfold increment_version
    rw [hfs]
    simp only [hb]
  refine ⟨?_, ?_, hsucc⟩
  · cases f <;>
      (simp only [VField.lit] at hmiss; simp [VField.get, parseRecord, parseField, hmiss])
  · rw [hstderr]
    refine List.mem_filterMap.mpr ⟨(f.key, f.lit), ?_, by simp [hmiss]⟩
    cases f <;> simp [fieldKeys, VField.key, VField.lit]

/-- Witness for C7: an empty file misses every field; the major field
parses to 0 with a warning and the run succeeds. -/
theorem claim_c7_missing_field_nonfatal_witness :
    VField.get .fMajor (parseRecord []) = 0 ∧
    Msg.warnMissing (VField.key .fMajor) ∈
      (increment_version emptyFileFs "version.h" "build").stderr ∧
    (increment_version emptyFileFs "version.h" "build").success = true :=
  claim_c7_missing_field_nonfatal emptyFileFs "version.h" [] .fMajor (by rfl) (by rfl)

/-- C8: rerunning the tool with the same valid kind on its own output is
the same as two cumulative increments of the original record: the first
run succeeds, the second run succeeds on the rewritten file, and the
final file parses to the twice-incremented record, whose version string
the second run confirms. -/
theorem claim_c8_rerun_composition {fs : String → Option (List Char)} {vf k : String}
    {sh : Shape} {v1 : VersionRecord}
    (hfs : fs vf = some sh.text) (hv : ShapeValid sh)
    (h1 : incrementRecord k (parseRecord sh.text) = some v1) :
    ∃ v2, incrementRecord k v1 = some v2 ∧
      (increment_version fs vf k).success = true ∧
      (increment_version (increment_version fs vf k).fs vf k).success = true ∧
      ∃ c2, (increment_version (increment_version fs vf k).fs vf k).fs vf = some c2 ∧
        parseRecord c2 = v2 ∧
        (increment_version (increment_version fs vf k).fs vf k).stdout =
          [Msg.confirm k (version_string v2)] := by
  have hkvalid : k = "major" ∨ k = "minor" ∨ k = "patch" ∨ k = "build" := by
    by_contra hk
    unfold incrementRecord at h1
    rw [if_neg hk] at h1
    cases h1
  have h2 : incrementRecord k v1 = some (cascadeReset k (bumpField k v1)) := by
    unfold incrementRecord
    rw [if_pos hkvalid]
  have hrun1 := increment_version_shape hfs hv h1
  have hfs1 : (increment_version fs vf k).fs vf = some ((sh.updated v1).text) := by
    rw [hrun1]
    simp
  have hv1sh : ShapeValid (sh.updated v1) := shapeValid_updated sh hv v1
  have h1' : incrementRecord k (parseRecord ((sh.updated v1).text)) =
      some (cascadeReset k (bumpField k v1)) := by
    rw [parseRecord_shape _ hv1sh, record_updated]
    exact h2
  have hrun2 := increment_version_shape hfs1 hv1sh h1'
  refine ⟨cascadeReset k (bumpField k v1), h2, by rw [hrun1], by rw [hrun2],
    ((sh.updated v1).updated (cascadeReset k (bumpField k v1))).text, ?_, ?_, ?_⟩
  · rw [hrun2]
    simp
  · rw [parseRecord_shape _ (shapeValid_updated _ hv1sh _), record_updated]
  · rw [hrun2]

/-- Witness for C8: two `build` runs on the (1, 2, 3, 9) test file. -/
theorem claim_c8_rerun_composition_witness :
    ∃ v2, incrementRecord "build" ⟨1, 2, 3, 10⟩ = some v2 ∧
      (increment_version exFs "version.h" "build").success = true ∧
      (increment_version (increment_version exFs "version.h" "build").fs
        "version.h" "build").success = true ∧
      ∃ c2, (increment_version (increment_version exFs "version.h" "build").fs
          "version.h" "build").fs "version.h" = some c2 ∧
        parseRecord c2 = v2 ∧
        (increment_version (increment_version exFs "version.h" "build").fs
            "version.h" "build").stdout =
          [Msg.confirm "build" (version_string v2)] :=
  @claim_c8_rerun_composition exFs "version.h" "build" exShape ⟨1, 2, 3, 10⟩ (by rfl) exShape_valid (by decide)

instance (a : List Char) : Decidable (noHash a) := by
  unfold noHash
  infer_instance

instance (w : List Char) : Decidable (spacesOK w) := by
  unfold spacesOK
  infer_instance

instance (d : List Char) : Decidable (digitsOK d) := by
  unfold digitsOK
  infer_instance

instance (p : List Char) : Decidable (payloadOK p) := by
  unfold payloadOK
  infer_instance

instance (a : List Char) : Decidable (noDigitHead a) := by
  unfold noDigitHead
  infer_instance

/-- C9: for each of the four fields, when its declaration occurs more
than once, the parse takes the leftmost occurrence's digits, while the
rewrite replaces the digit span of every occurrence with the same new
value — here the value derived from the leftmost occurrence (its parsed
value plus one). -/
theorem claim_c9_duplicate_occurrences (f : VField)
    (a0 w1 d1 a1 w2 d2 a2 : List Char)
    (ha0 : noHash a0) (ha1 : noHash a1) (ha2 : noHash a2)
    (hw1 : spacesOK w1) (hw2 : spacesOK w2)
    (hd1 : digitsOK d1) (hd2 : digitsOK d2)
    (hn1 : noDigitHead a1) (hn2 : noDigitHead a2) :
    searchNum f.lit
        (a0 ++ (f.lit ++ (w1 ++ (d1 ++ (a1 ++ (f.lit ++ (w2 ++ (d2 ++ a2)))))))) =
      some d1 ∧
    subNum f.lit (natToChars (digitsVal d1 + 1))
        (a0 ++ (f.lit ++ (w1 ++ (d1 ++ (a1 ++ (f.lit ++ (w2 ++ (d2 ++ a2)))))))) =
      a0 ++ (f.lit ++ (w1 ++ (natToChars (digitsVal d1 + 1) ++
        (a1 ++ (f.lit ++ (w2 ++ (natToChars (digitsVal d1 + 1) ++ a2))))))) := by
  have hf : (VField.lit f).head? = some '#' := by
    cases f <;> decide
  have hhead1 : ∀ c, (a1 ++ (f.lit ++ (w2 ++ (d2 ++ a2)))).head? = some c →
      isDigitCh c = false :=
    head_nonDigit_append hn1 (head_lit_nonDigit hf _)
  have hhead2 : ∀ c, a2.head? = some c → isDigitCh c = false := noDigitHead_head? hn2
  constructor
  · rw [searchNum_skip_chunk hf ha0,
      searchNum_here hf hw1.1 hw1.2 hd1.1 hd1.2 hhead1]
  · rw [subNum_skip_chunk _ hf ha0,
      subNum_here _ hf hw1.1 hw1.2 hd1.1 hd1.2 hhead1,
      subNum_skip_chunk _ hf ha1,
      subNum_here _ hf hw2.1 hw2.2 hd2.1 hd2.2 hhead2,
      subNum_noHash_id _ hf ha2]

/-- Witness for C9 on a file holding two major declarations with digits
1 and 7: the parse sees 1, the rewrite sets both spans to 2. -/
theorem claim_c9_duplicate_occurrences_witness :
    searchNum (VField.lit .fMajor)
        ([] ++ ((VField.lit .fMajor) ++ ([' '] ++ (['1'] ++ (['\n'] ++ ((VField.lit .fMajor) ++ ([' '] ++ (['7'] ++ [])))))))) =
      some ['1'] ∧
    subNum (VField.lit .fMajor) (natToChars (digitsVal ['1'] + 1))
        ([] ++ ((VField.lit .fMajor) ++ ([' '] ++ (['1'] ++ (['\n'] ++ ((VField.lit .fMajor) ++ ([' '] ++ (['7'] ++ [])))))))) =
      [] ++ ((VField.lit .fMajor) ++ ([' '] ++ (natToChars (digitsVal ['1'] + 1) ++
        (['\n'] ++ ((VField.lit .fMajor) ++ ([' '] ++ (natToChars (digitsVal ['1'] + 1) ++ []))))))) :=
  claim_c9_duplicate_occurrences .fMajor [] [' '] ['1'] ['\n'] [' '] ['7'] []
    (by decide) (by decide) (by decide)
    ⟨by decide, by decide⟩ ⟨by decide, by decide⟩
    ⟨by decide, by decide⟩ ⟨by decide, by decide⟩
    (by decide) (by decide)

/-- C10: the string patterns require a nonempty quoted payload; a
declaration whose payload is the empty string is left unchanged by the
corresponding substitution pass, so the computed value is not
substituted in. -/
theorem claim_c10_empty_payload (lit : List Char) (hlit : lit = litStr ∨ lit = litFull)
    (a0 w a1 new : List Char)
    (ha0 : noHash a0) (hw : ∀ c ∈ w, isSpaceCh c = true) (ha1 : noHash a1) :
    subStr lit new (a0 ++ (lit ++ (w ++ ('"' :: ('"' :: a1))))) =
      a0 ++ (lit ++ (w ++ ('"' :: ('"' :: a1)))) := by
  have hh : lit.head? = some '#' := by
    rcases hlit with h | h <;> subst h <;> decide
  have ht : ∀ c ∈ lit.tail, c ≠ '#' := by
    rcases hlit with h | h <;> subst h <;> decide
  have hnomatch : matchStrAt lit (lit ++ (w ++ ('"' :: ('"' :: a1)))) = none := by
    unfold matchStrAt
    rw [isPrefixOf_append_self, List.drop_left]
    have hsp := takeWhile_dropWhile_append (p := isSpaceCh) hw
      (head_quote_not_space ('"' :: a1))
    rw [hsp.1, hsp.2]
    simp
  rw [subStr_skip_chunk new hh ha0]
  cases lit with
  | nil => cases hh
  | cons x xs =>
    simp only [List.head?_cons, Option.some.injEq] at hh
    subst hh
    rw [List.cons_append] at hnomatch
    rw [List.cons_append, subStr_cons_none new hnomatch]
    have hall : noHash (xs ++ (w ++ ('"' :: ('"' :: a1)))) := by
      intro c hc
      simp only [List.mem_append, List.mem_cons] at hc
      rcases hc with h | h | h | h
      · exact ht c h
      · exact noHash_of_spaces hw c h
      · subst h; decide
      · rcases h with h | h
        · subst h; decide
        · exact ha1 c h
    rw [@subStr_noHash_id ('#' :: xs) new rfl _ hall]

/-- Witness for C10: an empty `FIRMWARE_VERSION_STRING` payload is left
alone. -/
theorem claim_c10_empty_payload_witness :
    subStr litStr ['z'] ([] ++ (litStr ++ ([' '] ++ ('"' :: ('"' :: []))))) =
      [] ++ (litStr ++ ([' '] ++ ('"' :: ('"' :: [])))) :=
  claim_c10_empty_payload litStr (Or.inl rfl) [] [' '] [] ['z']
    (by decide) (by decide) (by decide)
